import Mathlib

/-!
Verification of the Revaer torrent-orchestration core
(`src/crates/revaer-torrent-libt/src/ffi/session.cpp`) against its
natural-language specification.

The C++ source is shallowly embedded below.  Pure helpers (glob
translation, sample-piece selection, metainfo overrides, priority
resolution) become Lean functions; the stateful orchestrator
(`add_torrent`, `poll_events`, `update_trackers`) becomes explicit state
passing over a session-state record, with the external libtorrent engine
(bdecode/bencode, resume parsing, torrent registration, disk reads,
SHA-1) modelled as explicit oracle parameters, since that engine is an
external collaborator of this repository.
-/

namespace Revaer

/-! ## Glob matcher (`glob_to_regex`, session.cpp lines 79-113)

`glob_to_regex` translates a shell glob into an ECMAScript regex string,
character by character: `*` becomes `.*`, `?` becomes `.`, the listed
regex metacharacters are backslash-escaped, everything else passes
through, and the whole pattern is wrapped in `^ ... $`. -/

def regexMeta : List Char := ['.', '^', '$', '|', '(', ')', '[', ']', '\x7b', '\x7d', '+', '\\']

def glob_to_regex (pattern : List Char) : List Char :=
  '^' :: (pattern.foldl (fun acc ch =>
    if ch = '*' then acc ++ ['.', '*']
    else if ch = '?' then acc ++ ['.']
    else if ch ∈ regexMeta then acc ++ ['\\', ch]
    else acc ++ [ch]) []) ++ ['$']

/-- Tokens of the regex fragment that `glob_to_regex` can emit.  In its
output an unescaped `^` occurs only first, an unescaped `$` only last,
and `*` only directly after an unescaped `.` (both `^` and `$` are in
the escape set, and glob `*` is the sole producer of regex `*`). -/
inductive RTok where
  | bol : RTok
  | eol : RTok
  | star : RTok
  | anyc : RTok
  | lit : Char → RTok
  deriving DecidableEq

def parse_rx : List Char → List RTok
  | [] => []
  | '\\' :: c :: rest => .lit c :: parse_rx rest
  | '.' :: '*' :: rest => .star :: parse_rx rest
  | '.' :: rest => .anyc :: parse_rx rest
  | '^' :: rest => .bol :: parse_rx rest
  | '$' :: rest => .eol :: parse_rx rest
  | c :: rest => .lit c :: parse_rx rest

def suffixes : List Char → List (List Char)
  | [] => [[]]
  | c :: s => (c :: s) :: suffixes s

/-- Full-string match of a token list against a character list, with the
case-insensitive (`std::regex::icase`) literal comparison the source
always compiles its patterns with.  `.star` (the translation of glob
`*`) consumes an arbitrary prefix; `.eol` asserts the end of input and
`.bol` is a no-op since it only ever occurs at the very start. -/
def rmatch : List RTok → List Char → Bool
  | [], s => s.isEmpty
  | .bol :: ts, s => rmatch ts s
  | .eol :: ts, s => s.isEmpty && rmatch ts s
  | .star :: ts, s => (suffixes s).any (fun s2 => rmatch ts s2)
  | .anyc :: ts, s =>
    match s with
    | [] => false
    | _ :: s2 => rmatch ts s2
  | .lit c :: ts, s =>
    match s with
    | [] => false
    | d :: s2 => (c.toLower == d.toLower) && rmatch ts s2

/-- `std::regex_match(value, std::regex(glob_to_regex(pattern), icase))`. -/
def glob_match (pattern value : String) : Bool :=
  rmatch (parse_rx (glob_to_regex pattern.data)) value.data

/-- `matches_any` (session.cpp lines 2006-2011): true iff any compiled
pattern fully matches the value. -/
def matches_any (patterns : List String) (value : String) : Bool :=
  patterns.any (fun p => glob_match p value)

/-! ## Sample-piece selection (`pick_sample_pieces`, lines 115-145) -/

/-- The stride-walk loop of `pick_sample_pieces`: starting at piece 0 and
advancing by `step`, push unseen pieces until `sample_count` pieces are
collected or the piece index reaches `total`.  `fuel` bounds the
recursion; `total + 1` is always enough since the index grows by
`step ≥ 1` each round. -/
def strideLoop (total sc step : Nat) : Nat → Nat → List Nat → List Nat
  | 0, _, acc => acc
  | fuel + 1, piece, acc =>
    if acc.length < sc ∧ piece < total then
      strideLoop total sc step fuel (piece + step)
        (if piece ∈ acc then acc else acc ++ [piece])
    else acc

/-- The back-fill loop: walk candidates `0, 1, …, total-1` and append any
unseen index while fewer than `sample_count` pieces are collected. -/
def fillStep (sc : Nat) (acc : List Nat) (c : Nat) : List Nat :=
  if acc.length < sc ∧ c ∉ acc then acc ++ [c] else acc

/-- `pick_sample_pieces(total_pieces, sample_count)` (lines 115-145):
stride walk, then force-include of the final piece when the walk did not
end on it and room remains, then back-fill with the smallest unused
indices. -/
def pick_sample_pieces (total sc : Nat) : List Nat :=
  let pieces := strideLoop total sc (max 1 (total / sc)) (total + 1) 0 []
  let pieces :=
    if pieces ≠ [] ∧ pieces.getLast? ≠ some (total - 1) ∧ pieces.length < sc then
      (if (total - 1) ∈ pieces then pieces else pieces ++ [total - 1])
    else pieces
  (List.range total).foldl (fillStep sc) pieces

/-- `sample_count` as computed by `hash_sample` (lines 261-264):
`max(1, ceil(total_pieces * sample_pct / 100))`, with the real-valued
ceiling expressed exactly over naturals. -/
def sample_count (total pct : Nat) : Nat :=
  max 1 ((total * pct + 99) / 100)

theorem nodup_snoc (l : List Nat) (c : Nat) :
    (l ++ [c]).Nodup ↔ l.Nodup ∧ c ∉ l := by
  simp [List.nodup_append]

theorem strideLoop_inv (total sc step fuel : Nat) : ∀ (piece : Nat) (acc : List Nat),
    acc.Nodup → (∀ x ∈ acc, x < total) → acc.length ≤ sc →
    ((strideLoop total sc step fuel piece acc).Nodup ∧
     (∀ x ∈ strideLoop total sc step fuel piece acc, x < total) ∧
     (strideLoop total sc step fuel piece acc).length ≤ sc) := by
  induction fuel with
  | zero =>
    intro piece acc h1 h2 h3
    simpa [strideLoop] using ⟨h1, h2, h3⟩
  | succ n ih =>
    intro piece acc h1 h2 h3
    rw [strideLoop]
    split
    · rename_i hg
      split
      · exact ih _ _ h1 h2 h3
      · rename_i hmem
        refine ih _ _ ?_ ?_ ?_
        · exact (nodup_snoc acc piece).mpr ⟨h1, hmem⟩
        · intro x hx
          rcases List.mem_append.mp hx with hx | hx
          · exact h2 x hx
          · simp only [List.mem_singleton] at hx
            subst hx
            exact hg.2
        · simp only [List.length_append, List.length_singleton]
          omega
    · exact ⟨h1, h2, h3⟩

theorem strideLoop_mem_mono (total sc step fuel : Nat) : ∀ (piece x : Nat) (acc : List Nat),
    x ∈ acc → x ∈ strideLoop total sc step fuel piece acc := by
  induction fuel with
  | zero =>
    intro piece x acc hx
    simpa [strideLoop] using hx
  | succ n ih =>
    intro piece x acc hx
    rw [strideLoop]
    split
    · split
      · exact ih _ _ _ hx
      · exact ih _ _ _ (List.mem_append.mpr (Or.inl hx))
    · exact hx

theorem fillStep_mem_mono (sc : Nat) (acc : List Nat) (c x : Nat) (hx : x ∈ acc) :
    x ∈ fillStep sc acc c := by
  unfold fillStep
  split
  · exact List.mem_append.mpr (Or.inl hx)
  · exact hx

theorem fill_mem_mono (sc : Nat) : ∀ (l : List Nat) (acc : List Nat) (x : Nat),
    x ∈ acc → x ∈ l.foldl (fillStep sc) acc := by
  intro l
  induction l with
  | nil => intro acc x hx; exact hx
  | cons c l ih =>
    intro acc x hx
    exact ih _ _ (fillStep_mem_mono sc acc c x hx)

theorem fill_inv (sc total : Nat) : ∀ (l : List Nat) (acc : List Nat),
    (∀ c ∈ l, c < total) →
    acc.Nodup → (∀ x ∈ acc, x < total) → acc.length ≤ sc →
    ((l.foldl (fillStep sc) acc).Nodup ∧
     (∀ x ∈ l.foldl (fillStep sc) acc, x < total) ∧
     (l.foldl (fillStep sc) acc).length ≤ sc) := by
  intro l
  induction l with
  | nil => intro acc _ h1 h2 h3; exact ⟨h1, h2, h3⟩
  | cons c l ih =>
    intro acc hl h1 h2 h3
    simp only [List.foldl_cons]
    unfold fillStep
    split
    · rename_i hg
      refine ih _ (fun d hd => hl d (List.mem_cons_of_mem c hd)) ?_ ?_ ?_
      · exact (nodup_snoc acc c).mpr ⟨h1, hg.2⟩
      · intro x hx
        rcases List.mem_append.mp hx with hx | hx
        · exact h2 x hx
        · simp only [List.mem_singleton] at hx
          rw [hx]
          exact hl _ (List.mem_cons_self _ l)
      · simp only [List.length_append, List.length_singleton]
        omega
    · exact ih _ (fun d hd => hl d (List.mem_cons_of_mem c hd)) h1 h2 h3

theorem fill_full_or_all (sc : Nat) : ∀ (l : List Nat) (acc : List Nat),
    acc.length ≤ sc →
    (l.foldl (fillStep sc) acc).length = sc ∨
      ∀ c ∈ l, c ∈ l.foldl (fillStep sc) acc := by
  intro l
  induction l with
  | nil => intro acc _; right; intro c hc; cases hc
  | cons c l ih =>
    intro acc hlen
    simp only [List.foldl_cons]
    by_cases hg : acc.length < sc ∧ c ∉ acc
    · have hstep : fillStep sc acc c = acc ++ [c] := by
        unfold fillStep
        exact if_pos hg
      rw [hstep]
      have hlen2 : (acc ++ [c]).length ≤ sc := by
        simp only [List.length_append, List.length_singleton]
        omega
      rcases ih (acc ++ [c]) hlen2 with h | h
      · exact Or.inl h
      · right
        intro d hd
        rcases List.mem_cons.mp hd with hd | hd
        · subst hd
          exact fill_mem_mono sc l _ d (List.mem_append.mpr (Or.inr (List.mem_singleton_self d)))
        · exact h d hd
    · have hstep : fillStep sc acc c = acc := by
        unfold fillStep
        exact if_neg hg
      rw [hstep]
      by_cases hmem : c ∈ acc
      · rcases ih acc hlen with h | h
        · exact Or.inl h
        · right
          intro d hd
          rcases List.mem_cons.mp hd with hd | hd
          · subst hd
            exact fill_mem_mono sc l acc d hmem
          · exact h d hd
      · -- guard failed and c ∉ acc, so acc.length = sc; the fold is frozen
        have hfull : acc.length = sc := by
          rcases Nat.lt_or_ge acc.length sc with h | h
          · exact absurd ⟨h, hmem⟩ hg
          · omega
        left
        have hfrozen : ∀ (l2 : List Nat) (a : List Nat), a.length = sc →
            (l2.foldl (fillStep sc) a).length = sc := by
          intro l2
          induction l2 with
          | nil => intro a ha; exact ha
          | cons e l2 ih2 =>
            intro a ha
            simp only [List.foldl_cons]
            have : fillStep sc a e = a := by
              unfold fillStep
              rw [if_neg]
              intro hcontra
              omega
            rw [this]
            exact ih2 a ha
        exact hfrozen l acc hfull

theorem length_le_of_nodup_lt (l : List Nat) (total : Nat)
    (h1 : l.Nodup) (h2 : ∀ x ∈ l, x < total) : l.length ≤ total := by
  have hsub : l.toFinset ⊆ Finset.range total := by
    intro x hx
    exact Finset.mem_range.mpr (h2 x (List.mem_toFinset.mp hx))
  have := Finset.card_le_card hsub
  rw [List.toFinset_card_of_nodup h1, Finset.card_range] at this
  exact this

theorem le_length_of_all_mem (l : List Nat) (total : Nat)
    (h : ∀ c < total, c ∈ l) : total ≤ l.length := by
  have hsub : Finset.range total ⊆ l.toFinset := by
    intro x hx
    exact List.mem_toFinset.mpr (h x (Finset.mem_range.mp hx))
  have := Finset.card_le_card hsub
  rw [Finset.card_range] at this
  exact this.trans l.toFinset_card_le

/-- Shape facts about `pick_sample_pieces` for any `total ≥ 1`,
`sample_count ≥ 1`: the result has `min sample_count total` entries and
no duplicates, and the final piece is a member whenever the stride walk
stops short of `sample_count` indices. -/
theorem pick_sample_pieces_shape (total sc : Nat) (ht : 1 ≤ total) (hs : 1 ≤ sc) :
    (pick_sample_pieces total sc).length = min sc total ∧
    (pick_sample_pieces total sc).Nodup ∧
    ((strideLoop total sc (max 1 (total / sc)) (total + 1) 0 []).length < sc →
      (total - 1) ∈ pick_sample_pieces total sc) := by
  set step := max 1 (total / sc) with hstep
  set pr := strideLoop total sc step (total + 1) 0 [] with hpr
  have hprInv := strideLoop_inv total sc step (total + 1) 0 []
    List.nodup_nil (by intro x hx; cases hx) (by simp)
  rw [← hpr] at hprInv
  obtain ⟨hprNodup, hprBound, hprLen⟩ := hprInv
  -- the force-include stage
  set pf := if pr ≠ [] ∧ pr.getLast? ≠ some (total - 1) ∧ pr.length < sc then
      (if (total - 1) ∈ pr then pr else pr ++ [total - 1]) else pr with hpf
  have hpfInv : pf.Nodup ∧ (∀ x ∈ pf, x < total) ∧ pf.length ≤ sc := by
    rw [hpf]
    split
    · rename_i hg
      split
      · exact ⟨hprNodup, hprBound, hprLen⟩
      · rename_i hmem
        refine ⟨(nodup_snoc pr (total - 1)).mpr ⟨hprNodup, hmem⟩, ?_, ?_⟩
        · intro x hx
          rcases List.mem_append.mp hx with hx | hx
          · exact hprBound x hx
          · simp only [List.mem_singleton] at hx
            omega
        · simp only [List.length_append, List.length_singleton]
          omega
    · exact ⟨hprNodup, hprBound, hprLen⟩
  obtain ⟨hpfNodup, hpfBound, hpfLen⟩ := hpfInv
  have hpick : pick_sample_pieces total sc = (List.range total).foldl (fillStep sc) pf := by
    rw [pick_sample_pieces]
  have hresInv := fill_inv sc total (List.range total) pf
    (by intro c hc; exact List.mem_range.mp hc) hpfNodup hpfBound hpfLen
  obtain ⟨hresNodup, hresBound, hresLen⟩ := hresInv
  rw [← hpick] at hresNodup hresBound hresLen
  refine ⟨?_, hresNodup, ?_⟩
  · -- length = min sc total
    have hle_total := length_le_of_nodup_lt _ total hresNodup hresBound
    rcases fill_full_or_all sc (List.range total) pf hpfLen with h | h
    · rw [← hpick] at h
      omega
    · have hall : ∀ c < total, c ∈ pick_sample_pieces total sc := by
        intro c hc
        rw [hpick]
        exact h c (List.mem_range.mpr hc)
      have := le_length_of_all_mem _ total hall
      omega
  · -- final-piece membership when the stride walk stops short
    intro hshort
    have h0mem : 0 ∈ pr := by
      rw [hpr, strideLoop]
      rw [if_pos (by constructor <;> [simpa using hs; omega])]
      exact strideLoop_mem_mono total sc step total _ 0 _ (by simp)
    have hprNe : pr ≠ [] := List.ne_nil_of_mem h0mem
    have hmem_pf : (total - 1) ∈ pf := by
      rw [hpf]
      split
      · split
        · rename_i hmem
          exact hmem
        · exact List.mem_append.mpr (Or.inr (by simp))
      · rename_i hneg
        by_cases hl : pr.getLast? = some (total - 1)
        · exact List.mem_of_mem_getLast? hl
        · exact absurd ⟨hprNe, hl, hshort⟩ hneg
    rw [hpick]
    exact fill_mem_mono sc (List.range total) pf _ hmem_pf

theorem sample_count_le_total (total p : Nat) (ht : 1 ≤ total) (hp : p ≤ 100) :
    sample_count total p ≤ total := by
  have h : total * p ≤ total * 100 := Nat.mul_le_mul_left total hp
  unfold sample_count
  omega

/-- C1 (amended).  For every `total_pieces ≥ 1` and percentage `p` in
`(1,100]`, with `sample_count = max(1, ceil(total_pieces*p/100))`, the
piece-index list returned by `pick_sample_pieces` has size
`min(sample_count, total_pieces)` and contains no duplicate indices.
The final piece index `total_pieces - 1` is force-included only when the
stride walk stops short of `sample_count` indices (third conjunct); when
the stride walk already fills all `sample_count` slots the final piece
may be absent even though `sample_count ≥ 2` (see the counterexample). -/
theorem C1_sample_selection (total p : Nat) (ht : 1 ≤ total) (hp1 : 1 < p) (hp2 : p ≤ 100) :
    (pick_sample_pieces total (sample_count total p)).length
        = min (sample_count total p) total ∧
    (pick_sample_pieces total (sample_count total p)).length = sample_count total p ∧
    (pick_sample_pieces total (sample_count total p)).Nodup ∧
    (∀ sc, 1 ≤ sc →
      (strideLoop total sc (max 1 (total / sc)) (total + 1) 0 []).length < sc →
      (total - 1) ∈ pick_sample_pieces total sc) := by
  have h1 : 1 ≤ sample_count total p := le_max_left 1 _
  obtain ⟨ha, hb, _⟩ := pick_sample_pieces_shape total (sample_count total p) ht h1
  refine ⟨ha, ?_, hb, fun sc hsc hshort => (pick_sample_pieces_shape total sc ht hsc).2.2 hshort⟩
  rw [ha]
  exact min_eq_left (sample_count_le_total total p ht hp2)

/-- C1 witness: the amended statement applied at `total_pieces = 10`,
`p = 50`. -/
theorem C1_sample_selection_witness :
    (pick_sample_pieces 10 (sample_count 10 50)).length = min (sample_count 10 50) 10 ∧
    (pick_sample_pieces 10 (sample_count 10 50)).length = sample_count 10 50 ∧
    (pick_sample_pieces 10 (sample_count 10 50)).Nodup ∧
    (∀ sc, 1 ≤ sc →
      (strideLoop 10 sc (max 1 (10 / sc)) (10 + 1) 0 []).length < sc →
      (10 - 1) ∈ pick_sample_pieces 10 sc) :=
  C1_sample_selection 10 50 (by decide) (by decide) (by decide)

/-- C1 counterexample to the claim as stated: at `total_pieces = 10`,
`p = 50`, `sample_count = 5 ≥ 2`, the returned list is `[0, 2, 4, 6, 8]`
and does not include the final piece index `9`: the stride walk fills
all five slots before the force-include step can run. -/
theorem C1_claim_counterexample :
    1 ≤ 10 ∧ 1 < 50 ∧ 50 ≤ 100 ∧ sample_count 10 50 = 5 ∧ 2 ≤ sample_count 10 50 ∧
    pick_sample_pieces 10 (sample_count 10 50) = [0, 2, 4, 6, 8] ∧
    (10 - 1) ∉ pick_sample_pieces 10 (sample_count 10 50) := by decide

/-- C6.  The compiled glob matcher is anchored at both ends (every
produced regex is `^ body $`, and matching is full-string, not
substring), is case-insensitive, translates `*` to any run of
characters, `?` to exactly one character, and escapes regex
metacharacters so they match literally; in particular `"**/sample/**"`
matches `"Movie/sample/clip.mkv"` but not `"Movie/Sample2/clip.mkv"`. -/
theorem C6_glob_matcher :
    (∀ pattern : List Char, ∃ body, glob_to_regex pattern = '^' :: body ++ ['$']) ∧
    glob_match "**/sample/**" "Movie/sample/clip.mkv" = true ∧
    glob_match "**/sample/**" "Movie/Sample2/clip.mkv" = false ∧
    glob_match "**/sample/**" "Movie/SAMPLE/clip.MKV" = true ∧
    glob_match "a?c" "aBc" = true ∧
    glob_match "a?c" "abbc" = false ∧
    glob_match "a?c" "ac" = false ∧
    glob_match "a.c" "axc" = false ∧
    glob_match "a.c" "a.c" = true ∧
    glob_match "a*b" "ab" = true ∧
    glob_match "a*b" "axyzb" = true ∧
    glob_match "sample" "Xsample" = false ∧
    glob_match "sample" "sampleX" = false :=
  ⟨fun pattern => ⟨_, rfl⟩, by decide, by decide, by decide, by decide, by decide,
   by decide, by decide, by decide, by decide, by decide, by decide, by decide⟩

/-! ## Metainfo override applier (`apply_metainfo_overrides`, lines 208-246)

Bencoded documents (`lt::entry`) are modelled as an inductive tree whose
dictionaries are association lists; `std::map` assignment, erase and
find become `dictSet`, `dictErase` and `dictGet` (key order is
irrelevant to every lookup-level property proved here). -/

inductive Entry where
  | int : Int → Entry
  | str : String → Entry
  | list : List Entry → Entry
  | dict : List (String × Entry) → Entry

def dictGet (d : List (String × Entry)) (k : String) : Option Entry :=
  match d with
  | [] => none
  | (k2, v) :: rest => if k2 = k then some v else dictGet rest k

def dictSet (d : List (String × Entry)) (k : String) (v : Entry) : List (String × Entry) :=
  match d with
  | [] => [(k, v)]
  | (k2, w) :: rest => if k2 = k then (k2, v) :: rest else (k2, w) :: dictSet rest k v

def dictErase (d : List (String × Entry)) (k : String) : List (String × Entry) :=
  match d with
  | [] => []
  | (k2, w) :: rest => if k2 = k then rest else (k2, w) :: dictErase rest k

structure MetainfoOverrides where
  has_comment : Bool := false
  comment : String := ""
  has_source : Bool := false
  source : String := ""
  has_private : Bool := false
  private_flag : Bool := false

/-- The private-flag override step of `apply_metainfo_overrides`
(lines 223-229), acting on the `info` dictionary. -/
def ovPrivate (ov : MetainfoOverrides) (info : List (String × Entry)) :
    List (String × Entry) :=
  if ov.has_private then
    (if ov.private_flag then dictSet info "private" (.int 1)
     else dictErase info "private")
  else info

/-- The comment override step (lines 230-236), acting on the root
dictionary. -/
def ovComment (ov : MetainfoOverrides) (root : List (String × Entry)) :
    List (String × Entry) :=
  if ov.has_comment then
    (if ov.comment ≠ "" then dictSet root "comment" (.str ov.comment)
     else dictErase root "comment")
  else root

/-- The source override step (lines 237-243), acting on the `info`
dictionary. -/
def ovSource (ov : MetainfoOverrides) (info : List (String × Entry)) :
    List (String × Entry) :=
  if ov.has_source then
    (if ov.source ≠ "" then dictSet info "source" (.str ov.source)
     else dictErase info "source")
  else info

/-- `apply_metainfo_overrides` (lines 208-246): validate that the root is
a dictionary containing an `info` dictionary, then apply the private
(on `info`), comment (on the root) and source (on `info`) overrides in
that order.  The C++ mutates the `info` map in place through a reference
held inside the root map; here the updated `info` dictionary is written
back under the `"info"` key, which is observationally the same. -/
def apply_metainfo_overrides (metainfo : Entry) (ov : MetainfoOverrides) :
    Except String Entry :=
  match metainfo with
  | .dict root =>
    match dictGet root "info" with
    | some (.dict info) =>
      .ok (.dict (dictSet (ovComment ov root) "info"
        (.dict (ovSource ov (ovPrivate ov info)))))
    | _ => .error "metainfo is missing an info dictionary"
  | _ => .error "metainfo root must be a dictionary"

theorem dictGet_dictSet_same (d : List (String × Entry)) (k : String) (v : Entry) :
    dictGet (dictSet d k v) k = some v := by
  induction d with
  | nil => simp [dictSet, dictGet]
  | cons kv rest ih =>
    obtain ⟨k2, w⟩ := kv
    by_cases h : k2 = k
    · simp [dictSet, dictGet, h]
    · simp [dictSet, dictGet, h, ih]

theorem dictGet_dictSet_other (d : List (String × Entry)) (k k2 : String) (v : Entry)
    (hne : k2 ≠ k) : dictGet (dictSet d k v) k2 = dictGet d k2 := by
  induction d with
  | nil => simp [dictSet, dictGet, Ne.symm hne]
  | cons kv rest ih =>
    obtain ⟨k3, w⟩ := kv
    by_cases h : k3 = k
    · subst h
      simp [dictSet, dictGet, Ne.symm hne]
    · simp [dictSet, dictGet, h, ih]

theorem dictGet_not_mem_keys (d : List (String × Entry)) (k : String)
    (h : k ∉ d.map Prod.fst) : dictGet d k = none := by
  induction d with
  | nil => rfl
  | cons kv rest ih =>
    obtain ⟨k2, w⟩ := kv
    simp only [List.map_cons, List.mem_cons] at h
    push_neg at h
    simp only [dictGet]
    rw [if_neg (fun he => h.1 he.symm)]
    exact ih h.2

theorem dictGet_dictErase_same (d : List (String × Entry)) (k : String)
    (hnodup : (d.map Prod.fst).Nodup) : dictGet (dictErase d k) k = none := by
  induction d with
  | nil => rfl
  | cons kv rest ih =>
    obtain ⟨k2, w⟩ := kv
    simp only [List.map_cons, List.nodup_cons] at hnodup
    by_cases h : k2 = k
    · subst h
      simp only [dictErase, if_pos rfl]
      exact dictGet_not_mem_keys rest k2 hnodup.1
    · simp [dictErase, dictGet, h, ih hnodup.2]

theorem dictGet_dictErase_other (d : List (String × Entry)) (k k2 : String)
    (hne : k2 ≠ k) : dictGet (dictErase d k) k2 = dictGet d k2 := by
  induction d with
  | nil => rfl
  | cons kv rest ih =>
    obtain ⟨k3, w⟩ := kv
    by_cases h : k3 = k
    · subst h
      simp [dictErase, dictGet, Ne.symm hne]
    · simp [dictErase, dictGet, h, ih]

theorem mem_keys_dictSet (d : List (String × Entry)) (k : String) (v : Entry) (x : String) :
    x ∈ (dictSet d k v).map Prod.fst ↔ x ∈ d.map Prod.fst ∨ x = k := by
  induction d with
  | nil => simp [dictSet]
  | cons kv rest ih =>
    obtain ⟨k2, w⟩ := kv
    by_cases he : k2 = k
    · subst he
      rw [dictSet, if_pos rfl]
      simp only [List.map_cons, List.mem_cons]
      tauto
    · rw [dictSet, if_neg he]
      simp only [List.map_cons, List.mem_cons, ih]
      tauto

theorem dictSet_keys_nodup (d : List (String × Entry)) (k : String) (v : Entry)
    (h : (d.map Prod.fst).Nodup) : ((dictSet d k v).map Prod.fst).Nodup := by
  induction d with
  | nil => simp [dictSet]
  | cons kv rest ih =>
    obtain ⟨k2, w⟩ := kv
    simp only [List.map_cons, List.nodup_cons] at h
    by_cases he : k2 = k
    · subst he
      rw [dictSet, if_pos rfl]
      simp only [List.map_cons, List.nodup_cons]
      exact h
    · rw [dictSet, if_neg he]
      simp only [List.map_cons, List.nodup_cons]
      refine ⟨?_, ih h.2⟩
      intro hmem
      rcases (mem_keys_dictSet rest k v k2).mp hmem with hmem | hmem
      · exact h.1 hmem
      · exact he hmem

theorem mem_keys_dictErase (d : List (String × Entry)) (k x : String)
    (h : x ∈ (dictErase d k).map Prod.fst) : x ∈ d.map Prod.fst := by
  induction d with
  | nil => simpa [dictErase] using h
  | cons kv rest ih =>
    obtain ⟨k2, w⟩ := kv
    by_cases he : k2 = k
    · subst he
      simp only [dictErase, if_pos rfl] at h
      simp only [List.map_cons, List.mem_cons]
      exact Or.inr h
    · simp only [dictErase, if_neg he, List.map_cons, List.mem_cons] at h
      simp only [List.map_cons, List.mem_cons]
      rcases h with h | h
      · exact Or.inl h
      · exact Or.inr (ih h)

theorem dictErase_keys_nodup (d : List (String × Entry)) (k : String)
    (h : (d.map Prod.fst).Nodup) : ((dictErase d k).map Prod.fst).Nodup := by
  induction d with
  | nil => simpa [dictErase] using h
  | cons kv rest ih =>
    obtain ⟨k2, w⟩ := kv
    simp only [List.map_cons, List.nodup_cons] at h
    by_cases he : k2 = k
    · subst he
      simpa [dictErase] using h.2
    · simp only [dictErase, if_neg he, List.map_cons, List.nodup_cons]
      exact ⟨fun hmem => h.1 (mem_keys_dictErase rest k k2 hmem), ih h.2⟩

theorem ovPrivate_keys_nodup (ov : MetainfoOverrides) (info : List (String × Entry))
    (h : (info.map Prod.fst).Nodup) : ((ovPrivate ov info).map Prod.fst).Nodup := by
  unfold ovPrivate
  split
  · split
    · exact dictSet_keys_nodup info _ _ h
    · exact dictErase_keys_nodup info _ h
  · exact h

theorem ovPrivate_get_private (ov : MetainfoOverrides) (info : List (String × Entry))
    (h : (info.map Prod.fst).Nodup) :
    dictGet (ovPrivate ov info) "private" =
      (if ov.has_private then
        (if ov.private_flag then some (.int 1) else none)
       else dictGet info "private") := by
  unfold ovPrivate
  split
  · split
    · exact dictGet_dictSet_same info _ _
    · exact dictGet_dictErase_same info _ h
  · rfl

theorem ovPrivate_frame (ov : MetainfoOverrides) (info : List (String × Entry))
    (k : String) (hk : k ≠ "private") :
    dictGet (ovPrivate ov info) k = dictGet info k := by
  unfold ovPrivate
  split
  · split
    · exact dictGet_dictSet_other info _ k _ hk
    · exact dictGet_dictErase_other info _ k hk
  · rfl

theorem ovSource_get_source (ov : MetainfoOverrides) (info : List (String × Entry))
    (h : (info.map Prod.fst).Nodup) :
    dictGet (ovSource ov info) "source" =
      (if ov.has_source then
        (if ov.source ≠ "" then some (.str ov.source) else none)
       else dictGet info "source") := by
  unfold ovSource
  split
  · split
    · exact dictGet_dictSet_same info _ _
    · exact dictGet_dictErase_same info _ h
  · rfl

theorem ovSource_frame (ov : MetainfoOverrides) (info : List (String × Entry))
    (k : String) (hk : k ≠ "source") :
    dictGet (ovSource ov info) k = dictGet info k := by
  unfold ovSource
  split
  · split
    · exact dictGet_dictSet_other info _ k _ hk
    · exact dictGet_dictErase_other info _ k hk
  · rfl

theorem ovComment_get_comment (ov : MetainfoOverrides) (root : List (String × Entry))
    (h : (root.map Prod.fst).Nodup) :
    dictGet (ovComment ov root) "comment" =
      (if ov.has_comment then
        (if ov.comment ≠ "" then some (.str ov.comment) else none)
       else dictGet root "comment") := by
  unfold ovComment
  split
  · split
    · exact dictGet_dictSet_same root _ _
    · exact dictGet_dictErase_same root _ h
  · rfl

theorem ovComment_frame (ov : MetainfoOverrides) (root : List (String × Entry))
    (k : String) (hk : k ≠ "comment") :
    dictGet (ovComment ov root) k = dictGet root k := by
  unfold ovComment
  split
  · split
    · exact dictGet_dictSet_other root _ k _ hk
    · exact dictGet_dictErase_other root _ k hk
  · rfl

theorem apply_metainfo_overrides_ok (root info : List (String × Entry))
    (h : dictGet root "info" = some (.dict info)) (ov : MetainfoOverrides) :
    apply_metainfo_overrides (.dict root) ov =
      .ok (.dict (dictSet (ovComment ov root) "info"
        (.dict (ovSource ov (ovPrivate ov info))))) := by
  unfold apply_metainfo_overrides
  dsimp only
  rw [h]

theorem apply_metainfo_overrides_err (root : List (String × Entry)) (ov : MetainfoOverrides)
    (h : ∀ info, dictGet root "info" ≠ some (.dict info)) :
    apply_metainfo_overrides (.dict root) ov =
      .error "metainfo is missing an info dictionary" := by
  unfold apply_metainfo_overrides
  dsimp only
  cases hg : dictGet root "info" with
  | none => rfl
  | some v =>
    cases v with
    | int i => rfl
    | str s => rfl
    | list l => rfl
    | dict info => exact absurd hg (h info)

/-- C7.  The override applier fails iff the root is not a dictionary or
lacks an `info` sub-dictionary.  On success (for well-formed documents,
i.e. duplicate-free dictionary keys, which bdecoded `std::map`s always
have): `private=true` sets `info.private = 1`, `private=false` removes
the key, a non-empty comment/source sets the field (comment at the root,
source under `info`), an empty one removes it, an unset override leaves
the field untouched, and every other key of the root and of `info` keeps
its previous value. -/
theorem C7_metainfo_overrides (m : Entry) (ov : MetainfoOverrides) :
    ((∃ e, apply_metainfo_overrides m ov = .error e) ↔
      ¬ ∃ root info, m = .dict root ∧ dictGet root "info" = some (.dict info)) ∧
    (∀ root info, m = .dict root → dictGet root "info" = some (.dict info) →
      (root.map Prod.fst).Nodup → (info.map Prod.fst).Nodup →
      ∃ root2 info2,
        apply_metainfo_overrides m ov = .ok (.dict root2) ∧
        dictGet root2 "info" = some (.dict info2) ∧
        dictGet info2 "private" =
          (if ov.has_private then
            (if ov.private_flag then some (.int 1) else none)
           else dictGet info "private") ∧
        dictGet root2 "comment" =
          (if ov.has_comment then
            (if ov.comment ≠ "" then some (.str ov.comment) else none)
           else dictGet root "comment") ∧
        dictGet info2 "source" =
          (if ov.has_source then
            (if ov.source ≠ "" then some (.str ov.source) else none)
           else dictGet info "source") ∧
        (∀ k, k ≠ "info" → k ≠ "comment" → dictGet root2 k = dictGet root k) ∧
        (∀ k, k ≠ "private" → k ≠ "source" → dictGet info2 k = dictGet info k)) := by
  cases m with
  | int i =>
    refine ⟨iff_of_true ⟨_, rfl⟩ ?_, ?_⟩
    · rintro ⟨root, info, hroot, -⟩
      exact Entry.noConfusion hroot
    · intro root info hroot
      exact absurd hroot (fun h => Entry.noConfusion h)
  | str v =>
    refine ⟨iff_of_true ⟨_, rfl⟩ ?_, ?_⟩
    · rintro ⟨root, info, hroot, -⟩
      exact Entry.noConfusion hroot
    · intro root info hroot
      exact absurd hroot (fun h => Entry.noConfusion h)
  | list l =>
    refine ⟨iff_of_true ⟨_, rfl⟩ ?_, ?_⟩
    · rintro ⟨root, info, hroot, -⟩
      exact Entry.noConfusion hroot
    · intro root info hroot
      exact absurd hroot (fun h => Entry.noConfusion h)
  | dict root =>
    by_cases hinfo : ∃ info, dictGet root "info" = some (.dict info)
    · obtain ⟨info, hg⟩ := hinfo
      have hok := apply_metainfo_overrides_ok root info hg ov
      refine ⟨iff_of_false ?_ ?_, ?_⟩
      · rintro ⟨e, he⟩
        rw [hok] at he
        exact Except.noConfusion he
      · intro hno
        exact hno ⟨root, info, rfl, hg⟩
      · intro root' info' hroot' hg' hrn hin
        injection hroot' with hr
        subst hr
        rw [hg] at hg'
        injection hg' with h2
        injection h2 with h3
        subst h3
        refine ⟨_, _, hok, dictGet_dictSet_same _ _ _, ?_, ?_, ?_, ?_, ?_⟩
        · rw [ovSource_frame ov _ "private" (by decide)]
          exact ovPrivate_get_private ov info hin
        · rw [dictGet_dictSet_other _ "info" "comment" _ (by decide)]
          exact ovComment_get_comment ov root hrn
        · rw [ovSource_get_source ov _ (ovPrivate_keys_nodup ov info hin)]
          rw [ovPrivate_frame ov info "source" (by decide)]
        · intro k hk1 hk2
          rw [dictGet_dictSet_other _ "info" k _ hk1]
          exact ovComment_frame ov root k hk2
        · intro k hk1 hk2
          rw [ovSource_frame ov _ k hk2]
          exact ovPrivate_frame ov info k hk1
    · have herr := apply_metainfo_overrides_err root ov
        (fun info h => hinfo ⟨info, h⟩)
      refine ⟨iff_of_true ⟨_, herr⟩ ?_, ?_⟩
      · rintro ⟨root', info', hroot', hg'⟩
        injection hroot' with hr
        subst hr
        exact hinfo ⟨info', hg'⟩
      · intro root' info' hroot' hg'
        injection hroot' with hr
        subst hr
        exact absurd ⟨info', hg'⟩ hinfo

/-- C7 witness: the applier evaluated on a concrete document with all
three overrides set (private := true, comment := "" so it is removed,
source := "tag" so it is set). -/
theorem C7_metainfo_overrides_witness :
    ∃ root2 info2,
      apply_metainfo_overrides
        (.dict [("comment", .str "old"),
                ("info", .dict [("name", .str "x"), ("private", .int 0)]),
                ("other", .int 5)])
        { has_comment := true, comment := "",
          has_source := true, source := "tag",
          has_private := true, private_flag := true } = .ok (.dict root2) ∧
      dictGet root2 "info" = some (.dict info2) ∧
      dictGet info2 "private" =
        (if true then (if true then some (.int 1) else none)
         else dictGet [("name", Entry.str "x"), ("private", Entry.int 0)] "private") ∧
      dictGet root2 "comment" =
        (if true then (if ("" : String) ≠ "" then some (.str "") else none)
         else dictGet [("comment", Entry.str "old"),
                ("info", Entry.dict [("name", Entry.str "x"), ("private", Entry.int 0)]),
                ("other", Entry.int 5)] "comment") ∧
      dictGet info2 "source" =
        (if true then (if ("tag" : String) ≠ "" then some (.str "tag") else none)
         else dictGet [("name", Entry.str "x"), ("private", Entry.int 0)] "source") ∧
      (∀ k, k ≠ "info" → k ≠ "comment" →
        dictGet root2 k =
          dictGet [("comment", Entry.str "old"),
                   ("info", Entry.dict [("name", Entry.str "x"), ("private", Entry.int 0)]),
                   ("other", Entry.int 5)] k) ∧
      (∀ k, k ≠ "private" → k ≠ "source" →
        dictGet info2 k =
          dictGet [("name", Entry.str "x"), ("private", Entry.int 0)] k) :=
  (C7_metainfo_overrides _ _).2
    [("comment", .str "old"),
     ("info", .dict [("name", .str "x"), ("private", .int 0)]),
     ("other", .int 5)]
    [("name", .str "x"), ("private", .int 0)]
    rfl rfl (by decide) (by decide)

/-! ## Selection engine (`to_priority` lines 343-354, `apply_selection`
lines 2013-2054, fluff patterns lines 62-68)

`apply_selection` builds one priority per file (default, overridden to
"don't download" by the skip-fluff heuristic or an exclude match,
re-confirmed default on an include match) and then applies the explicit
per-index overrides unconditionally; the resulting vector is pushed to
the engine via `prioritize_files`.  Only the pure priority computation
is embedded; the engine push consumes the returned vector as-is. -/

def kSkipFluffPatterns : List String :=
  ["**/sample/**", "**/samples/**", "**/extras/**", "**/proof/**", "**/screens/**"]

def is_fluff (path : String) : Bool := matches_any kSkipFluffPatterns path

def dont_download : Nat := 0
def low_priority : Nat := 1
def default_priority : Nat := 4
def top_priority : Nat := 7

/-- `to_priority` (lines 343-354): map the request's numeric priority
onto libtorrent's scale (0 = don't download, 1 = low, 7 = top, anything
else passed through as `download_priority_t{value}`). -/
def to_priority (value : Nat) : Nat :=
  if value = 0 then dont_download
  else if value = 1 then low_priority
  else if value = 7 then top_priority
  else value

structure FilePriorityOverride where
  index : Nat
  priority : Nat

/-- `SelectionEntry` (lines 356-361).  The compiled `std::regex` vectors
are kept as the glob patterns they were compiled from (`update_selection`
compiles each pattern with `glob_to_regex` + `icase`, which `glob_match`
embeds); `include`/`exclude` are suffixed since `include` is a Lean
keyword. -/
structure SelectionEntry where
  include_patterns : List String := []
  exclude_patterns : List String := []
  overrides : List FilePriorityOverride := []
  skip_fluff : Bool := false

/-- One iteration of the override loop (lines 2047-2051): out-of-range
indices are skipped. -/
def overrideStep (pr : List Nat) (ov : FilePriorityOverride) : List Nat :=
  if ov.index < pr.length then pr.set ov.index (to_priority ov.priority) else pr

/-- The per-file pass of `apply_selection` (lines 2025-2045): default
priority, forced to don't-download on a fluff match (when `skip_fluff`)
or an exclude match, re-confirmed default on an include match. -/
def selection_base (rules : SelectionEntry) (files : List String) : List Nat :=
  files.map (fun path =>
    if rules.skip_fluff && is_fluff path then dont_download
    else if !rules.exclude_patterns.isEmpty && matches_any rules.exclude_patterns path then
      dont_download
    else if !rules.include_patterns.isEmpty && matches_any rules.include_patterns path then
      default_priority
    else default_priority)

/-- The full priority vector of `apply_selection`: the per-file pass
followed by the override pass (lines 2047-2051), in file-index order. -/
def resolve_priorities (rules : SelectionEntry) (files : List String) : List Nat :=
  rules.overrides.foldl overrideStep (selection_base rules files)

theorem selection_base_length (rules : SelectionEntry) (files : List String) :
    (selection_base rules files).length = files.length :=
  List.length_map files _

theorem selection_base_overrides_irrelevant (rules : SelectionEntry)
    (files : List String) (l : List FilePriorityOverride) :
    selection_base { rules with overrides := l } files = selection_base rules files := rfl

theorem overrideStep_in_range (pr : List Nat) (ov : FilePriorityOverride)
    (h : ov.index < pr.length) :
    overrideStep pr ov = pr.set ov.index (to_priority ov.priority) := by
  unfold overrideStep
  exact if_pos h

theorem overrideStep_out_of_range (pr : List Nat) (ov : FilePriorityOverride)
    (h : pr.length ≤ ov.index) : overrideStep pr ov = pr := by
  unfold overrideStep
  rw [if_neg]
  omega

theorem overrideStep_length (pr : List Nat) (ov : FilePriorityOverride) :
    (overrideStep pr ov).length = pr.length := by
  unfold overrideStep
  split
  · exact List.length_set pr _ _
  · rfl

theorem foldl_overrideStep_length (l : List FilePriorityOverride) :
    ∀ pr : List Nat, (l.foldl overrideStep pr).length = pr.length := by
  induction l with
  | nil => intro pr; rfl
  | cons e l ih =>
    intro pr
    simp only [List.foldl_cons]
    rw [ih, overrideStep_length]

theorem foldl_overrideStep_get_frame (i : Nat) (l : List FilePriorityOverride)
    (h : ∀ e ∈ l, e.index ≠ i) :
    ∀ pr : List Nat, (l.foldl overrideStep pr).get? i = pr.get? i := by
  induction l with
  | nil => intro pr; rfl
  | cons e l ih =>
    intro pr
    simp only [List.foldl_cons]
    rw [ih (fun e2 he2 => h e2 (List.mem_cons_of_mem e he2))]
    unfold overrideStep
    split
    · exact List.get?_set_ne _ pr (h e (List.mem_cons_self e l))
    · rfl

/-- C8.  Explicit per-file-index overrides are applied after the
skip-fluff/exclude/include pass and always win: whatever the base pass
assigned to file `i` (in particular when its path matches a fluff or
exclude pattern), if the last override targeting `i` carries value `v`
then the resolved vector holds `to_priority v` at index `i`; and
`to_priority` maps 0 to don't-download, 1 to low, 7 to top and passes
any other numeric value through. -/
theorem C8_override_wins (rules : SelectionEntry) (files : List String)
    (i v : Nat) (l1 l2 : List FilePriorityOverride)
    (hov : rules.overrides = l1 ++ ⟨i, v⟩ :: l2)
    (hlast : ∀ e ∈ l2, e.index ≠ i)
    (hi : i < files.length) :
    (resolve_priorities rules files).get? i = some (to_priority v) ∧
    to_priority 0 = dont_download ∧
    to_priority 1 = low_priority ∧
    to_priority 7 = top_priority ∧
    (∀ w, w ≠ 0 → w ≠ 1 → w ≠ 7 → to_priority w = w) := by
  refine ⟨?_, rfl, rfl, rfl, ?_⟩
  · unfold resolve_priorities
    rw [hov, List.foldl_append, List.foldl_cons]
    rw [foldl_overrideStep_get_frame i l2 hlast]
    have hlen : (l1.foldl overrideStep (selection_base rules files)).length
        = files.length := by
      rw [foldl_overrideStep_length, selection_base_length]
    rw [overrideStep_in_range _ _ (by rw [hlen]; exact hi)]
    exact List.get?_set_eq_of_lt _ (by rw [hlen]; exact hi)
  · intro w h0 h1 h7
    simp [to_priority, h0, h1, h7]

/-- C8 witness: a two-file torrent where file 0 matches the built-in
fluff patterns and also carries an explicit override with value 7. -/
theorem C8_override_wins_witness :
    (resolve_priorities
      { skip_fluff := true, overrides := [⟨0, 7⟩] }
      ["Movie/sample/clip.mkv", "Movie/movie.mkv"]).get? 0 = some (to_priority 7) ∧
    to_priority 0 = dont_download ∧
    to_priority 1 = low_priority ∧
    to_priority 7 = top_priority ∧
    (∀ w, w ≠ 0 → w ≠ 1 → w ≠ 7 → to_priority w = w) :=
  C8_override_wins { skip_fluff := true, overrides := [⟨0, 7⟩] }
    ["Movie/sample/clip.mkv", "Movie/movie.mkv"] 0 7 [] []
    rfl (by intro e he; cases he) (by decide)

/-- C9.  The resolved priority vector always has exactly one entry per
file index, and an override whose index is out of range (`≥` the file
count) is silently skipped: removing it from the override list does not
change the result, and no error is possible (the resolution is a total
function). -/
theorem C9_selection_bounds (rules : SelectionEntry) (files : List String) :
    (resolve_priorities rules files).length = files.length ∧
    (∀ e l1 l2, rules.overrides = l1 ++ e :: l2 → files.length ≤ e.index →
      resolve_priorities rules files =
        resolve_priorities { rules with overrides := l1 ++ l2 } files) := by
  constructor
  · unfold resolve_priorities
    rw [foldl_overrideStep_length, selection_base_length]
  · intro e l1 l2 hov hge
    unfold resolve_priorities
    simp only [hov, selection_base_overrides_irrelevant]
    rw [List.foldl_append, List.foldl_cons, List.foldl_append]
    congr 1
    exact overrideStep_out_of_range _ e
      (by rw [foldl_overrideStep_length, selection_base_length]; omega)

/-- C9 witness: a one-file torrent with an override at the out-of-range
index 5; the vector still has one entry and the override is a no-op. -/
theorem C9_selection_bounds_witness :
    (resolve_priorities { overrides := [⟨5, 0⟩] } ["a.mkv"]).length = 1 ∧
    (∀ e l1 l2,
      ([⟨5, 0⟩] : List FilePriorityOverride) = l1 ++ e :: l2 →
      1 ≤ e.index →
      resolve_priorities { overrides := [⟨5, 0⟩] } ["a.mkv"] =
        resolve_priorities
          { ({ overrides := [⟨5, 0⟩] } : SelectionEntry) with overrides := l1 ++ l2 }
          ["a.mkv"]) := by
  have h := C9_selection_bounds { overrides := [⟨5, 0⟩] } ["a.mkv"]
  simpa using h

/-! ## Tracker auth injection and `update_trackers` (lines 1514-1545,
2095-2143)

`percent_encode` and `inject_basic_auth` are embedded character-wise
(the C++ walks bytes; for the ASCII tracker URLs and credentials at play
the two coincide).  `update_trackers` runs inside `mutate_handle` on a
registered torrent: it merges (or, on `replace`, rebuilds) the engine's
current tracker list with the auth-rewritten non-empty request URLs,
deduplicating, and calls `replace_trackers` only when the merged list is
non-empty. -/

def hexDigit (n : Nat) : Char :=
  if n < 10 then Char.ofNat (48 + n) else Char.ofNat (55 + n)

def percent_encode_char (ch : Char) : List Char :=
  if ch.isAlphanum || ch = '-' || ch = '_' || ch = '.' || ch = '~' then [ch]
  else ['%', hexDigit (ch.toNat / 16 % 16), hexDigit (ch.toNat % 16)]

/-- `percent_encode` (lines 2095-2108): RFC 3986 unreserved characters
pass through, everything else becomes `%HH` with uppercase hex. -/
def percent_encode (value : String) : String :=
  ⟨value.data.foldl (fun acc ch => acc ++ percent_encode_char ch) []⟩

structure AuthView where
  username : String := ""
  password : String := ""
  has_username : Bool := false
  has_password : Bool := false

/-- `inject_basic_auth` (lines 2110-2128): non-HTTP(S) URLs pass through
unchanged; otherwise `user:pass@` (each part percent-encoded, empty when
unset) is inserted after the scheme separator. -/
def inject_basic_auth (tracker : String) (auth : AuthView) : String :=
  if !(tracker.startsWith "http://" || tracker.startsWith "https://") then tracker
  else
    let scheme_end : Nat := if tracker.startsWith "http://" then 4 else 5
    let encoded_user := if auth.has_username then percent_encode auth.username else ""
    let encoded_pass := if auth.has_password then percent_encode auth.password else ""
    tracker.take (scheme_end + 3) ++ encoded_user ++ ":" ++ encoded_pass ++ "@"
      ++ tracker.drop (scheme_end + 3)

/-- `apply_tracker_auth` (lines 2130-2143): identity when no credential
is set, else rewrite every tracker. -/
def apply_tracker_auth (trackers : List String) (auth : AuthView) : List String :=
  if !auth.has_username && !auth.has_password then trackers
  else trackers.map (fun t => inject_basic_auth t auth)

/-- One request URL of the `update_trackers` merge loop (lines
1532-1540): empty URLs are skipped, the rest are auth-rewritten and
appended unless already present. -/
def mergeTrackerStep (auth : AuthView) (acc : List String) (url : String) : List String :=
  if url = "" then acc
  else
    let r := inject_basic_auth url auth
    if r ∈ acc then acc else acc ++ [r]

/-- The merged tracker list `update_trackers` computes (lines
1523-1540): the engine's current list (unless `replace`) extended by the
deduplicated, auth-rewritten request URLs. -/
def merge_trackers (auth : AuthView) (existing : List String) (rep : Bool)
    (reqTrackers : List String) : List String :=
  reqTrackers.foldl (mergeTrackerStep auth) (if !rep then existing else [])

/-- The observable outcome of `update_trackers` on a registered torrent
(lines 1541-1543): whether `replace_trackers` was called, and the
torrent's tracker list afterwards. -/
def update_trackers_apply (auth : AuthView) (existing : List String) (rep : Bool)
    (reqTrackers : List String) : Bool × List String :=
  if merge_trackers auth existing rep reqTrackers ≠ [] then
    (true, merge_trackers auth existing rep reqTrackers)
  else (false, existing)

/-- C10.  If the merged, deduplicated tracker list comes out empty, no
`replace_trackers` call is made and the torrent's tracker list is left
unchanged; in particular `replace = true` with only empty request URLs
is such a case; and a torrent with a non-empty tracker list can never
end up with an empty one. -/
theorem C10_update_trackers (auth : AuthView) (existing reqTrackers : List String)
    (rep : Bool) :
    (merge_trackers auth existing rep reqTrackers = [] →
      update_trackers_apply auth existing rep reqTrackers = (false, existing)) ∧
    (rep = true → (∀ u ∈ reqTrackers, u = "") →
      update_trackers_apply auth existing rep reqTrackers = (false, existing)) ∧
    (existing ≠ [] → (update_trackers_apply auth existing rep reqTrackers).2 ≠ []) := by
  have hempty : ∀ (l : List String) (acc : List String), (∀ u ∈ l, u = "") →
      l.foldl (mergeTrackerStep auth) acc = acc := by
    intro l
    induction l with
    | nil => intro acc _; rfl
    | cons u l ih =>
      intro acc hl
      simp only [List.foldl_cons]
      rw [show mergeTrackerStep auth acc u = acc from by
        unfold mergeTrackerStep
        rw [if_pos (hl u (List.mem_cons_self u l))]]
      exact ih acc (fun u2 hu2 => hl u2 (List.mem_cons_of_mem u hu2))
  refine ⟨?_, ?_, ?_⟩
  · intro hm
    unfold update_trackers_apply
    rw [if_neg (by simpa using hm)]
  · intro hrep hall
    have hm : merge_trackers auth existing rep reqTrackers = [] := by
      unfold merge_trackers
      rw [hrep]
      exact hempty reqTrackers [] hall
    unfold update_trackers_apply
    rw [if_neg (by simpa using hm)]
  · intro hex
    unfold update_trackers_apply
    split
    · rename_i h
      exact h
    · exact hex

/-- C10 witness: `replace = true` with a single empty URL against a
torrent holding one tracker: no engine call, trackers unchanged. -/
theorem C10_update_trackers_witness :
    (merge_trackers {} ["http://t.example/announce"] true [""] = [] →
      update_trackers_apply {} ["http://t.example/announce"] true [""] =
        (false, ["http://t.example/announce"])) ∧
    (true = true → (∀ u ∈ [""], u = "") →
      update_trackers_apply {} ["http://t.example/announce"] true [""] =
        (false, ["http://t.example/announce"])) ∧
    (["http://t.example/announce"] ≠ [] →
      (update_trackers_apply {} ["http://t.example/announce"] true [""]).2 ≠ []) :=
  C10_update_trackers {} ["http://t.example/announce"] [""] true

/-! ## Event synthesizer (`poll_events`, lines 1639-1946)

The engine's alert queue and per-torrent status feed are inputs: one
`poll_events` call processes a drained alert list and then walks every
tracked torrent, diffing its freshly fetched status against the
last-emitted snapshot.  Statuses, alerts and `torrent_file()` views are
modelled as plain data; `find_torrent_id` resolves an alert's handle to
the owning id (empty when untracked).  The `double` progress ratio is
carried as an exact rational. -/

inductive NativeTorrentState where
  | Queued | FetchingMetadata | Downloading | Completed | Seeding | Stopped | Failed
  deriving DecidableEq

/-- `lt::torrent_status::state_t`; `other` stands for the deprecated /
unknown enumerators the `default:` arm of `map_state` catches. -/
inductive LtState where
  | checking_files | checking_resume_data | downloading_metadata
  | downloading | finished | seeding | other
  deriving DecidableEq

/-- `map_state` (lines 324-341). -/
def map_state : LtState → NativeTorrentState
  | .checking_files => .Queued
  | .checking_resume_data => .Queued
  | .downloading_metadata => .FetchingMetadata
  | .downloading => .Downloading
  | .finished => .Completed
  | .seeding => .Seeding
  | .other => .Stopped

structure NativeFile where
  index : Nat := 0
  path : String := ""
  size_bytes : Nat := 0
  deriving DecidableEq

/-- The view of `handle.torrent_file()` the poll loop reads: torrent
name, resolved file list, and the `extract_metainfo_details` fields. -/
structure InfoView where
  name : String := ""
  files : List NativeFile := []
  comment : String := ""
  source : String := ""
  private_flag : Bool := false
  deriving DecidableEq

/-- The slice of `lt::torrent_status` the poll loop reads. -/
structure TorrentStatus where
  state : LtState := .downloading
  errc : Option String := none
  name : String := ""
  save_path : String := ""
  total_done : Nat := 0
  total_wanted : Nat := 0
  download_payload_rate : Int := 0
  upload_payload_rate : Int := 0
  total_payload_download : Int := 0
  total_payload_upload : Int := 0
  is_finished : Bool := false
  need_save_resume : Bool := false
  deriving DecidableEq

/-- `TorrentSnapshot` (lines 363-373), with the C++ member
initializers as defaults. -/
structure TorrentSnapshot where
  state : NativeTorrentState := .Queued
  bytes_downloaded : Nat := 0
  bytes_total : Nat := 0
  metadata_applied : Bool := false
  metadata_emitted : Bool := false
  completed_emitted : Bool := false
  resume_requested : Bool := false
  last_name : String := ""
  last_download_dir : String := ""
  deriving DecidableEq

inductive NativeEventKind where
  | StateChanged | Progress | FilesDiscovered | MetadataUpdated | Completed
  | ResumeData | TrackerUpdate | Error | SessionError
  deriving DecidableEq

structure NativeTrackerStatus where
  url : String := ""
  status : String := ""
  message : String := ""
  deriving DecidableEq

structure NativeEvent where
  id : String := ""
  kind : NativeEventKind
  state : NativeTorrentState := .Queued
  name : String := ""
  download_dir : String := ""
  message : String := ""
  component : String := ""
  files : List NativeFile := []
  comment : String := ""
  source : String := ""
  private_flag : Bool := false
  has_private : Bool := false
  bytes_downloaded : Nat := 0
  bytes_total : Nat := 0
  download_bps : Int := 0
  upload_bps : Int := 0
  ratio_value : Rat := 0
  resume_data : List Nat := []
  tracker_statuses : List NativeTrackerStatus := []
  library_path : String := ""
  deriving DecidableEq

/-- Generic association-list operations for the orchestrator's
`std::unordered_map`s keyed by TorrentId. -/
def alGet {α : Type} (m : List (String × α)) (k : String) : Option α :=
  match m with
  | [] => none
  | (k2, v) :: rest => if k2 = k then some v else alGet rest k

def alSet {α : Type} (m : List (String × α)) (k : String) (v : α) : List (String × α) :=
  match m with
  | [] => [(k, v)]
  | (k2, w) :: rest => if k2 = k then (k2, v) :: rest else (k2, w) :: alSet rest k v

def alErase {α : Type} (m : List (String × α)) (k : String) : List (String × α) :=
  match m with
  | [] => []
  | (k2, w) :: rest => if k2 = k then rest else (k2, w) :: alErase rest k

abbrev SnapMap := List (String × TorrentSnapshot)

/-- `snapshots_[id]`: `operator[]` default-constructs a missing entry. -/
def snapGetD (m : SnapMap) (k : String) : TorrentSnapshot :=
  (alGet m k).getD {}

/-! ### The per-torrent status loop (lines 1804-1938), stage by stage -/

/-- Lines 1812-1819: a persistent status error emits an Error event. -/
def stageErrorEvents (id : String) (st : TorrentStatus) : List NativeEvent :=
  match st.errc with
  | some msg =>
    [{ id := id
       kind := .Error
       state := .Failed
       message := msg }]
  | none => []

/-- Lines 1821-1857: on first metadata availability emit FilesDiscovered
then MetadataUpdated, re-resolve the selection, and record the emission
in the snapshot. -/
def stageMetadata (id : String) (st : TorrentStatus) (info : Option InfoView)
    (snap : TorrentSnapshot) : List NativeEvent × TorrentSnapshot :=
  if snap.metadata_emitted then ([], snap)
  else
    match info with
    | none => ([], snap)
    | some iv =>
      ([{ id := id
          kind := .FilesDiscovered
          state := map_state st.state
          name := iv.name
          download_dir := st.save_path
          files := iv.files },
        { id := id
          kind := .MetadataUpdated
          state := map_state st.state
          name := iv.name
          download_dir := st.save_path
          comment := iv.comment
          source := iv.source
          private_flag := iv.private_flag
          has_private := true }],
       { snap with
         metadata_applied := true
         last_name := iv.name
         last_download_dir := st.save_path
         metadata_emitted := true })

/-- Lines 1859-1877: a changed name or save path emits MetadataUpdated
and updates the snapshot immediately. -/
def stageNameDiff (id : String) (st : TorrentStatus) (info : Option InfoView)
    (snap : TorrentSnapshot) : List NativeEvent × TorrentSnapshot :=
  if snap.last_name ≠ st.name ∨ snap.last_download_dir ≠ st.save_path then
    ([{ id := id
        kind := .MetadataUpdated
        state := map_state st.state
        name := st.name
        download_dir := st.save_path
        comment := (info.map (·.comment)).getD ""
        source := (info.map (·.source)).getD ""
        private_flag := (info.map (·.private_flag)).getD false
        has_private := info.isSome }],
     { snap with
       last_name := st.name
       last_download_dir := st.save_path })
  else ([], snap)

/-- Lines 1879-1888: a changed mapped lifecycle state emits StateChanged
and updates the snapshot immediately. -/
def stageState (id : String) (st : TorrentStatus) (snap : TorrentSnapshot) :
    List NativeEvent × TorrentSnapshot :=
  if snap.state ≠ map_state st.state then
    ([{ id := id
        kind := .StateChanged
        state := map_state st.state
        name := st.name
        download_dir := st.save_path }],
     { snap with state := map_state st.state })
  else ([], snap)

/-- Lines 1890-1915: changed downloaded/wanted byte counters emit
Progress (with clamped rates and the upload/download ratio, 0 when
nothing was downloaded) and update the snapshot immediately. -/
def stageProgress (id : String) (st : TorrentStatus) (snap : TorrentSnapshot) :
    List NativeEvent × TorrentSnapshot :=
  if st.total_done ≠ snap.bytes_downloaded ∨ st.total_wanted ≠ snap.bytes_total then
    ([{ id := id
        kind := .Progress
        state := map_state st.state
        name := st.name
        download_dir := st.save_path
        bytes_downloaded := st.total_done
        bytes_total := st.total_wanted
        download_bps := if st.download_payload_rate > 0 then st.download_payload_rate else 0
        upload_bps := if st.upload_payload_rate > 0 then st.upload_payload_rate else 0
        ratio_value := if st.total_payload_download > 0 then
            (st.total_payload_upload : Rat) / (st.total_payload_download : Rat) else 0 }],
     { snap with
       bytes_downloaded := st.total_done
       bytes_total := st.total_wanted })
  else ([], snap)

/-- Lines 1917-1928: a one-time Completed event the first time the
torrent is finished or seeding. -/
def stageCompleted (id : String) (st : TorrentStatus) (snap : TorrentSnapshot) :
    List NativeEvent × TorrentSnapshot :=
  if ¬ snap.completed_emitted ∧ (st.is_finished ∨ st.state = .seeding) then
    ([{ id := id
        kind := .Completed
        state := .Completed
        name := st.name
        library_path := st.save_path }],
     { snap with completed_emitted := true })
  else ([], snap)

/-- Lines 1930-1935: request a resume-data save when the engine flags
the torrent dirty and no save is outstanding; the returned Bool records
whether `handle.save_resume_data` was called. -/
def stageResume (st : TorrentStatus) (snap : TorrentSnapshot) :
    TorrentSnapshot × Bool :=
  if st.need_save_resume then
    (if ¬ snap.resume_requested then ({ snap with resume_requested := true }, true)
     else (snap, false))
  else (snap, false)

structure PollTorrentResult where
  events : List NativeEvent
  snapshot : TorrentSnapshot
  save_requested : Bool
  deriving DecidableEq

/-- The per-torrent body of the status loop (lines 1804-1938), with each
snapshot field updated immediately after its event is appended. -/
def pollTorrent (id : String) (st : TorrentStatus) (info : Option InfoView)
    (snap0 : TorrentSnapshot) : PollTorrentResult :=
  let e0 := stageErrorEvents id st
  let m1 := stageMetadata id st info snap0
  let m2 := stageNameDiff id st info m1.2
  let m3 := stageState id st m2.2
  let m4 := stageProgress id st m3.2
  let m5 := stageCompleted id st m4.2
  let m6 := stageResume st m5.2
  ⟨e0 ++ m1.1 ++ m2.1 ++ m3.1 ++ m4.1 ++ m5.1, m6.1, m6.2⟩

/-! ### The alert drain loop (lines 1654-1802) -/

/-- The alert kinds the drain loop recognizes, with the payload fields
each handler reads.  `aid` stands for the id `find_torrent_id` resolves
the alert's handle to when the handle is tracked. -/
inductive Alert where
  | torrent_error (aid msg : String)
  | tracker_error (aid url msg : String)
  | listen_failed (msg : String)
  | portmap_error (msg : String)
  | file_error (aid msg : String)
  | tracker_warning (aid url msg : String)
  | peer_ban (aid msg : String)
  | peer_error (aid msg : String)
  | peer_blocked (aid msg : String)
  | torrent_need_cert (aid msg : String)
  | storage_moved (aid path : String) (info : Option InfoView)
  | storage_moved_failed (aid msg : String)
  | save_resume_data (aid : String) (payload : List Nat)
  | save_resume_data_failed (aid msg : String)
  deriving DecidableEq

/-- `find_torrent_id` (lines 1985-1992): the owning id, or the empty
string when the handle is not tracked. -/
def find_torrent_id (ids : List String) (aid : String) : String :=
  if aid ∈ ids then aid else ""

/-- The `push_session_error` lambda (lines 1642-1653). -/
def sessionErrorEvent (component msg aid : String) : NativeEvent :=
  { id := aid
    kind := .SessionError
    state := .Failed
    component := component
    message := msg }

def trackerUpdateEvent (id url status msg : String) : NativeEvent :=
  { id := id
    kind := .TrackerUpdate
    state := .Downloading
    tracker_statuses := [{ url := url, status := status, message := msg }] }

/-- One alert's handlers (lines 1657-1801), in the order the cast chain
runs them.  A `tracker_error_alert` matches two handlers (TrackerUpdate
at lines 1669-1684, then a session error at lines 1718-1723); a
`file_error_alert` emits both a torrent Error and a storage session
error.  Only the storage-move and save-resume handlers mutate
snapshots. -/
def processAlert (ids : List String) (snaps : SnapMap) (a : Alert) :
    List NativeEvent × SnapMap :=
  match a with
  | .torrent_error aid msg =>
    let id := find_torrent_id ids aid
    (if id ≠ "" then
      [{ id := id, kind := .Error, state := .Failed, message := msg }]
     else [], snaps)
  | .tracker_error aid url msg =>
    let id := find_torrent_id ids aid
    ((if id ≠ "" then [trackerUpdateEvent id url "error" msg] else [])
       ++ [sessionErrorEvent "tracker" msg id], snaps)
  | .listen_failed msg => ([sessionErrorEvent "network" msg ""], snaps)
  | .portmap_error msg => ([sessionErrorEvent "portmap" msg ""], snaps)
  | .file_error aid msg =>
    let id := find_torrent_id ids aid
    ([{ id := id, kind := .Error, state := .Failed, message := msg },
      sessionErrorEvent "storage" msg id], snaps)
  | .tracker_warning aid url msg =>
    let id := find_torrent_id ids aid
    (if id ≠ "" then [trackerUpdateEvent id url "warning" msg] else [], snaps)
  | .peer_ban aid msg =>
    ([sessionErrorEvent "peer" msg (find_torrent_id ids aid)], snaps)
  | .peer_error aid msg =>
    ([sessionErrorEvent "peer" msg (find_torrent_id ids aid)], snaps)
  | .peer_blocked aid msg =>
    ([sessionErrorEvent "peer" msg (find_torrent_id ids aid)], snaps)
  | .torrent_need_cert aid msg =>
    ([sessionErrorEvent "ssl" msg (find_torrent_id ids aid)], snaps)
  | .storage_moved aid path info =>
    let id := find_torrent_id ids aid
    (match alGet snaps id with
     | some snap =>
       if id ≠ "" then
         ([{ id := id
             kind := .MetadataUpdated
             state := snap.state
             name := snap.last_name
             download_dir := path
             comment := (info.map (·.comment)).getD ""
             source := (info.map (·.source)).getD ""
             private_flag := (info.map (·.private_flag)).getD false
             has_private := info.isSome }],
          alSet snaps id { snap with last_download_dir := path })
       else ([], snaps)
     | none => ([], snaps))
  | .storage_moved_failed aid msg =>
    let id := find_torrent_id ids aid
    (match alGet snaps id with
     | some snap =>
       if id ≠ "" then
         ([{ id := id, kind := .Error, state := snap.state, message := msg }], snaps)
       else ([], snaps)
     | none => ([], snaps))
  | .save_resume_data aid payload =>
    let id := find_torrent_id ids aid
    (match alGet snaps id with
     | some snap =>
       if id ≠ "" then
         ([{ id := id, kind := .ResumeData, state := snap.state, resume_data := payload }],
          alSet snaps id { snap with resume_requested := false })
       else ([], snaps)
     | none => ([], snaps))
  | .save_resume_data_failed aid msg =>
    let id := find_torrent_id ids aid
    (match alGet snaps id with
     | some snap =>
       if id ≠ "" then
         ([{ id := id, kind := .Error, state := snap.state, message := msg }],
          alSet snaps id { snap with resume_requested := false })
       else ([], snaps)
     | none => ([], snaps))

def processAlerts (ids : List String) (alerts : List Alert) (snaps : SnapMap) :
    List NativeEvent × SnapMap :=
  alerts.foldl (fun acc a =>
    let r := processAlert ids acc.2 a
    (acc.1 ++ r.1, r.2)) ([], snaps)

structure PollResult where
  events : List NativeEvent
  snapshots : SnapMap
  save_requests : List String
  deriving DecidableEq

/-- `poll_events` (lines 1639-1946): drain and dispatch the pending
alerts, then walk every tracked torrent in order, appending its
per-torrent events, writing back its updated snapshot, and recording any
`save_resume_data` request issued to the engine. -/
def poll_events (alerts : List Alert)
    (torrents : List (String × TorrentStatus × Option InfoView))
    (snaps0 : SnapMap) : PollResult :=
  let ids := torrents.map (·.1)
  let ar := processAlerts ids alerts snaps0
  let tr := torrents.foldl (fun acc t =>
      let pr := pollTorrent t.1 t.2.1 t.2.2 (snapGetD acc.2.1 t.1)
      (acc.1 ++ pr.events, alSet acc.2.1 t.1 pr.snapshot,
       if pr.save_requested then acc.2.2 ++ [t.1] else acc.2.2))
    (([], ar.2, []) : List NativeEvent × SnapMap × List String)
  ⟨ar.1 ++ tr.1, tr.2.1, tr.2.2⟩

theorem alGet_alSet_same {α : Type} (m : List (String × α)) (k : String) (v : α) :
    alGet (alSet m k v) k = some v := by
  induction m with
  | nil => simp [alSet, alGet]
  | cons kv rest ih =>
    obtain ⟨k2, w⟩ := kv
    by_cases h : k2 = k
    · subst h
      rw [alSet, if_pos rfl, alGet, if_pos rfl]
    · rw [alSet, if_neg h, alGet, if_neg h]
      exact ih

theorem alGet_alSet_other {α : Type} (m : List (String × α)) (k k2 : String) (v : α)
    (hne : k2 ≠ k) : alGet (alSet m k v) k2 = alGet m k2 := by
  induction m with
  | nil => simp [alSet, alGet, Ne.symm hne]
  | cons kv rest ih =>
    obtain ⟨k3, w⟩ := kv
    by_cases h : k3 = k
    · subst h
      rw [alSet, if_pos rfl, alGet, alGet]
      rw [if_neg (Ne.symm hne), if_neg (Ne.symm hne)]
    · rw [alSet, if_neg h, alGet, alGet]
      by_cases h2 : k3 = k2
      · rw [if_pos h2, if_pos h2]
      · rw [if_neg h2, if_neg h2]
        exact ih

def countKind (k : NativeEventKind) (evs : List NativeEvent) : Nat :=
  (evs.filter (fun e => e.kind = k)).length

theorem countKind_append (k : NativeEventKind) (a b : List NativeEvent) :
    countKind k (a ++ b) = countKind k a + countKind k b := by
  unfold countKind
  rw [List.filter_append, List.length_append]

theorem pollTorrent_snapshot_eq (id : String) (st : TorrentStatus)
    (info : Option InfoView) (snap0 : TorrentSnapshot) :
    (pollTorrent id st info snap0).snapshot =
      (stageResume st (stageCompleted id st (stageProgress id st (stageState id st
        (stageNameDiff id st info (stageMetadata id st info snap0).2).2).2).2).2).1 := rfl

theorem pollTorrent_events_eq (id : String) (st : TorrentStatus)
    (info : Option InfoView) (snap0 : TorrentSnapshot) :
    (pollTorrent id st info snap0).events =
      stageErrorEvents id st
        ++ (stageMetadata id st info snap0).1
        ++ (stageNameDiff id st info (stageMetadata id st info snap0).2).1
        ++ (stageState id st
              (stageNameDiff id st info (stageMetadata id st info snap0).2).2).1
        ++ (stageProgress id st (stageState id st
              (stageNameDiff id st info (stageMetadata id st info snap0).2).2).2).1
        ++ (stageCompleted id st (stageProgress id st (stageState id st
              (stageNameDiff id st info (stageMetadata id st info snap0).2).2).2).2).1 := rfl

theorem pollTorrent_save_eq (id : String) (st : TorrentStatus)
    (info : Option InfoView) (snap0 : TorrentSnapshot) :
    (pollTorrent id st info snap0).save_requested =
      (stageResume st (stageCompleted id st (stageProgress id st (stageState id st
        (stageNameDiff id st info (stageMetadata id st info snap0).2).2).2).2).2).2 := rfl

theorem stageMetadata_fields (id : String) (st : TorrentStatus) (info : Option InfoView)
    (snap : TorrentSnapshot) :
    (stageMetadata id st info snap).2.state = snap.state ∧
    (stageMetadata id st info snap).2.bytes_downloaded = snap.bytes_downloaded ∧
    (stageMetadata id st info snap).2.bytes_total = snap.bytes_total ∧
    (stageMetadata id st info snap).2.completed_emitted = snap.completed_emitted ∧
    (stageMetadata id st info snap).2.resume_requested = snap.resume_requested ∧
    (info.isSome = true → (stageMetadata id st info snap).2.metadata_emitted = true) := by
  unfold stageMetadata
  cases info <;> split_ifs <;> simp_all

theorem stageNameDiff_fields (id : String) (st : TorrentStatus) (info : Option InfoView)
    (snap : TorrentSnapshot) :
    (stageNameDiff id st info snap).2.last_name = st.name ∧
    (stageNameDiff id st info snap).2.last_download_dir = st.save_path ∧
    (stageNameDiff id st info snap).2.state = snap.state ∧
    (stageNameDiff id st info snap).2.bytes_downloaded = snap.bytes_downloaded ∧
    (stageNameDiff id st info snap).2.bytes_total = snap.bytes_total ∧
    (stageNameDiff id st info snap).2.completed_emitted = snap.completed_emitted ∧
    (stageNameDiff id st info snap).2.metadata_emitted = snap.metadata_emitted ∧
    (stageNameDiff id st info snap).2.resume_requested = snap.resume_requested := by
  unfold stageNameDiff
  split_ifs with h
  · simp
  · push_neg at h
    simp [h.1, h.2]

theorem stageState_fields (id : String) (st : TorrentStatus) (snap : TorrentSnapshot) :
    (stageState id st snap).2.state = map_state st.state ∧
    (stageState id st snap).2.last_name = snap.last_name ∧
    (stageState id st snap).2.last_download_dir = snap.last_download_dir ∧
    (stageState id st snap).2.bytes_downloaded = snap.bytes_downloaded ∧
    (stageState id st snap).2.bytes_total = snap.bytes_total ∧
    (stageState id st snap).2.completed_emitted = snap.completed_emitted ∧
    (stageState id st snap).2.metadata_emitted = snap.metadata_emitted ∧
    (stageState id st snap).2.resume_requested = snap.resume_requested := by
  unfold stageState
  split_ifs with h
  · simp
  · rw [not_not] at h
    simp [h]

theorem stageProgress_fields (id : String) (st : TorrentStatus) (snap : TorrentSnapshot) :
    (stageProgress id st snap).2.bytes_downloaded = st.total_done ∧
    (stageProgress id st snap).2.bytes_total = st.total_wanted ∧
    (stageProgress id st snap).2.state = snap.state ∧
    (stageProgress id st snap).2.last_name = snap.last_name ∧
    (stageProgress id st snap).2.last_download_dir = snap.last_download_dir ∧
    (stageProgress id st snap).2.completed_emitted = snap.completed_emitted ∧
    (stageProgress id st snap).2.metadata_emitted = snap.metadata_emitted ∧
    (stageProgress id st snap).2.resume_requested = snap.resume_requested := by
  unfold stageProgress
  split_ifs <;> simp_all

theorem stageCompleted_fields (id : String) (st : TorrentStatus) (snap : TorrentSnapshot) :
    (st.is_finished = true ∨ st.state = .seeding →
      (stageCompleted id st snap).2.completed_emitted = true) ∧
    (stageCompleted id st snap).2.state = snap.state ∧
    (stageCompleted id st snap).2.last_name = snap.last_name ∧
    (stageCompleted id st snap).2.last_download_dir = snap.last_download_dir ∧
    (stageCompleted id st snap).2.bytes_downloaded = snap.bytes_downloaded ∧
    (stageCompleted id st snap).2.bytes_total = snap.bytes_total ∧
    (stageCompleted id st snap).2.metadata_emitted = snap.metadata_emitted ∧
    (stageCompleted id st snap).2.resume_requested = snap.resume_requested := by
  unfold stageCompleted
  split_ifs with h
  · simp
  · refine ⟨?_, rfl, rfl, rfl, rfl, rfl, rfl, rfl⟩
    intro hc
    by_cases he : snap.completed_emitted = true
    · exact he
    · exact absurd ⟨fun hb => he hb, hc⟩ h

theorem stageResume_fields (st : TorrentStatus) (snap : TorrentSnapshot) :
    (stageResume st snap).1.state = snap.state ∧
    (stageResume st snap).1.last_name = snap.last_name ∧
    (stageResume st snap).1.last_download_dir = snap.last_download_dir ∧
    (stageResume st snap).1.bytes_downloaded = snap.bytes_downloaded ∧
    (stageResume st snap).1.bytes_total = snap.bytes_total ∧
    (stageResume st snap).1.completed_emitted = snap.completed_emitted ∧
    (stageResume st snap).1.metadata_emitted = snap.metadata_emitted := by
  unfold stageResume
  split_ifs <;> simp

/-- After one poll, the snapshot's diffing fields agree with the status
that was observed, and the one-shot flags are set whenever their
condition held. -/
theorem pollTorrent_snapshot_fields (id : String) (st : TorrentStatus)
    (info : Option InfoView) (snap : TorrentSnapshot) :
    (pollTorrent id st info snap).snapshot.last_name = st.name ∧
    (pollTorrent id st info snap).snapshot.last_download_dir = st.save_path ∧
    (pollTorrent id st info snap).snapshot.state = map_state st.state ∧
    (pollTorrent id st info snap).snapshot.bytes_downloaded = st.total_done ∧
    (pollTorrent id st info snap).snapshot.bytes_total = st.total_wanted ∧
    (info.isSome = true → (pollTorrent id st info snap).snapshot.metadata_emitted = true) ∧
    (st.is_finished = true ∨ st.state = .seeding →
      (pollTorrent id st info snap).snapshot.completed_emitted = true) := by
  rw [pollTorrent_snapshot_eq]
  obtain ⟨m1a, m1b, m1c, m1d, m1e, m1f⟩ := stageMetadata_fields id st info snap
  obtain ⟨n1, n2, n3, n4, n5, n6, n7, n8⟩ :=
    stageNameDiff_fields id st info (stageMetadata id st info snap).2
  obtain ⟨s1, s2, s3, s4, s5, s6, s7, s8⟩ :=
    stageState_fields id st (stageNameDiff id st info (stageMetadata id st info snap).2).2
  obtain ⟨p1, p2, p3, p4, p5, p6, p7, p8⟩ :=
    stageProgress_fields id st (stageState id st
      (stageNameDiff id st info (stageMetadata id st info snap).2).2).2
  obtain ⟨c1, c2, c3, c4, c5, c6, c7, c8⟩ :=
    stageCompleted_fields id st (stageProgress id st (stageState id st
      (stageNameDiff id st info (stageMetadata id st info snap).2).2).2).2
  obtain ⟨r1, r2, r3, r4, r5, r6, r7⟩ :=
    stageResume_fields st (stageCompleted id st (stageProgress id st (stageState id st
      (stageNameDiff id st info (stageMetadata id st info snap).2).2).2).2).2
  refine ⟨?_, ?_, ?_, ?_, ?_, ?_, ?_⟩
  · rw [r2, c3, p4, s2, n1]
  · rw [r3, c4, p5, s3, n2]
  · rw [r1, c2, p3, s1]
  · rw [r4, c5, p1]
  · rw [r5, c6, p2]
  · intro hinfo
    rw [r7, c7, p7, s7, n7]
    exact m1f hinfo
  · intro hc
    rw [r6]
    exact c1 hc

theorem stageMetadata_skip (id : String) (st : TorrentStatus) (info : Option InfoView)
    (snap : TorrentSnapshot) (h : snap.metadata_emitted = true ∨ info = none) :
    stageMetadata id st info snap = ([], snap) := by
  unfold stageMetadata
  rcases h with h | h
  · rw [if_pos h]
  · subst h
    split
    · rfl
    · rfl

theorem stageNameDiff_skip (id : String) (st : TorrentStatus) (info : Option InfoView)
    (snap : TorrentSnapshot) (h1 : snap.last_name = st.name)
    (h2 : snap.last_download_dir = st.save_path) :
    stageNameDiff id st info snap = ([], snap) := by
  unfold stageNameDiff
  rw [if_neg]
  push_neg
  exact ⟨h1, h2⟩

theorem stageState_skip (id : String) (st : TorrentStatus) (snap : TorrentSnapshot)
    (h : snap.state = map_state st.state) : stageState id st snap = ([], snap) := by
  unfold stageState
  rw [if_neg]
  simpa using h

theorem stageProgress_skip (id : String) (st : TorrentStatus) (snap : TorrentSnapshot)
    (h1 : snap.bytes_downloaded = st.total_done) (h2 : snap.bytes_total = st.total_wanted) :
    stageProgress id st snap = ([], snap) := by
  unfold stageProgress
  rw [if_neg]
  push_neg
  exact ⟨h1.symm, h2.symm⟩

theorem stageCompleted_skip (id : String) (st : TorrentStatus) (snap : TorrentSnapshot)
    (h : st.is_finished = true ∨ st.state = .seeding → snap.completed_emitted = true) :
    stageCompleted id st snap = ([], snap) := by
  unfold stageCompleted
  rw [if_neg]
  intro hc
  rw [h hc.2] at hc
  exact hc.1 rfl

/-- When the snapshot already reflects the observed status, a poll emits
only the (repeatable) status-error event. -/
theorem pollTorrent_stable (id : String) (st : TorrentStatus) (info : Option InfoView)
    (snap : TorrentSnapshot)
    (h1 : snap.last_name = st.name) (h2 : snap.last_download_dir = st.save_path)
    (h3 : snap.state = map_state st.state)
    (h4 : snap.bytes_downloaded = st.total_done) (h5 : snap.bytes_total = st.total_wanted)
    (h6 : info.isSome = true → snap.metadata_emitted = true)
    (h7 : st.is_finished = true ∨ st.state = .seeding → snap.completed_emitted = true) :
    (pollTorrent id st info snap).events = stageErrorEvents id st := by
  have hm1 : stageMetadata id st info snap = ([], snap) := by
    apply stageMetadata_skip
    cases info with
    | none => exact Or.inr rfl
    | some iv => exact Or.inl (h6 rfl)
  rw [pollTorrent_events_eq, hm1]
  rw [show (([], snap) : List NativeEvent × TorrentSnapshot).2 = snap from rfl]
  rw [stageNameDiff_skip id st info snap h1 h2]
  rw [show (([], snap) : List NativeEvent × TorrentSnapshot).2 = snap from rfl]
  rw [stageState_skip id st snap h3]
  rw [show (([], snap) : List NativeEvent × TorrentSnapshot).2 = snap from rfl]
  rw [stageProgress_skip id st snap h4 h5]
  rw [show (([], snap) : List NativeEvent × TorrentSnapshot).2 = snap from rfl]
  rw [stageCompleted_skip id st snap h7]
  simp

theorem countKind_stageErrorEvents (id : String) (st : TorrentStatus)
    (k : NativeEventKind) (hk : k ≠ .Error) :
    countKind k (stageErrorEvents id st) = 0 := by
  unfold stageErrorEvents
  cases st.errc with
  | none => rfl
  | some msg => simp [countKind, Ne.symm hk]

theorem poll_events_singleton (id : String) (st : TorrentStatus) (info : Option InfoView)
    (snaps : SnapMap) :
    poll_events [] [(id, st, info)] snaps =
      ⟨(pollTorrent id st info (snapGetD snaps id)).events,
       alSet snaps id (pollTorrent id st info (snapGetD snaps id)).snapshot,
       if (pollTorrent id st info (snapGetD snaps id)).save_requested then [id] else []⟩ := by
  unfold poll_events processAlerts
  simp

theorem countKind_le_length (k : NativeEventKind) (l : List NativeEvent) :
    countKind k l ≤ l.length := by
  unfold countKind
  exact List.length_filter_le _ l

theorem stageState_events_len (id : String) (st : TorrentStatus) (snap : TorrentSnapshot) :
    (stageState id st snap).1.length ≤ 1 := by
  unfold stageState
  split_ifs <;> simp

theorem stageProgress_events_len (id : String) (st : TorrentStatus) (snap : TorrentSnapshot) :
    (stageProgress id st snap).1.length ≤ 1 := by
  unfold stageProgress
  split_ifs <;> simp

theorem stageCompleted_events_len (id : String) (st : TorrentStatus) (snap : TorrentSnapshot) :
    (stageCompleted id st snap).1.length ≤ 1 := by
  unfold stageCompleted
  split_ifs <;> simp

theorem stageMetadata_counts (id : String) (st : TorrentStatus) (info : Option InfoView)
    (snap : TorrentSnapshot) (k : NativeEventKind)
    (h1 : k ≠ .FilesDiscovered) (h2 : k ≠ .MetadataUpdated) :
    countKind k (stageMetadata id st info snap).1 = 0 := by
  unfold stageMetadata
  cases info <;> split_ifs <;> simp [countKind, Ne.symm h1, Ne.symm h2]

theorem stageNameDiff_counts (id : String) (st : TorrentStatus) (info : Option InfoView)
    (snap : TorrentSnapshot) (k : NativeEventKind) (h : k ≠ .MetadataUpdated) :
    countKind k (stageNameDiff id st info snap).1 = 0 := by
  unfold stageNameDiff
  split_ifs <;> simp [countKind, Ne.symm h]

theorem stageState_counts (id : String) (st : TorrentStatus) (snap : TorrentSnapshot)
    (k : NativeEventKind) (h : k ≠ .StateChanged) :
    countKind k (stageState id st snap).1 = 0 := by
  unfold stageState
  split_ifs <;> simp [countKind, Ne.symm h]

theorem stageProgress_counts (id : String) (st : TorrentStatus) (snap : TorrentSnapshot)
    (k : NativeEventKind) (h : k ≠ .Progress) :
    countKind k (stageProgress id st snap).1 = 0 := by
  unfold stageProgress
  split_ifs <;> simp [countKind, Ne.symm h]

theorem stageCompleted_counts (id : String) (st : TorrentStatus) (snap : TorrentSnapshot)
    (k : NativeEventKind) (h : k ≠ .Completed) :
    countKind k (stageCompleted id st snap).1 = 0 := by
  unfold stageCompleted
  split_ifs <;> simp [countKind, Ne.symm h]

/-- Within one poll, the per-torrent body emits each diff-driven
transition at most once: its snapshot fields are updated immediately
after the event is appended, and every diffing stage runs once. -/
theorem pollTorrent_counts (id : String) (st : TorrentStatus) (info : Option InfoView)
    (snap : TorrentSnapshot) :
    countKind .StateChanged (pollTorrent id st info snap).events ≤ 1 ∧
    countKind .Progress (pollTorrent id st info snap).events ≤ 1 ∧
    countKind .Completed (pollTorrent id st info snap).events ≤ 1 := by
  rw [pollTorrent_events_eq]
  simp only [countKind_append]
  refine ⟨?_, ?_, ?_⟩
  · rw [countKind_stageErrorEvents id st _ (by decide),
      stageMetadata_counts id st info _ _ (by decide) (by decide),
      stageNameDiff_counts id st info _ _ (by decide),
      stageProgress_counts id st _ _ (by decide),
      stageCompleted_counts id st _ _ (by decide)]
    have h := (countKind_le_length .StateChanged _).trans (stageState_events_len id st
      (stageNameDiff id st info (stageMetadata id st info snap).2).2)
    omega
  · rw [countKind_stageErrorEvents id st _ (by decide),
      stageMetadata_counts id st info _ _ (by decide) (by decide),
      stageNameDiff_counts id st info _ _ (by decide),
      stageState_counts id st _ _ (by decide),
      stageCompleted_counts id st _ _ (by decide)]
    have h := (countKind_le_length .Progress _).trans (stageProgress_events_len id st
      (stageState id st (stageNameDiff id st info (stageMetadata id st info snap).2).2).2)
    omega
  · rw [countKind_stageErrorEvents id st _ (by decide),
      stageMetadata_counts id st info _ _ (by decide) (by decide),
      stageNameDiff_counts id st info _ _ (by decide),
      stageState_counts id st _ _ (by decide),
      stageProgress_counts id st _ _ (by decide)]
    have h := (countKind_le_length .Completed _).trans (stageCompleted_events_len id st
      (stageProgress id st (stageState id st
        (stageNameDiff id st info (stageMetadata id st info snap).2).2).2).2)
    omega

/-- C4.  With no new alerts and an engine status identical to the one
the previous poll observed (same state, name, save path, downloaded and
wanted bytes), the second poll emits zero Progress, StateChanged,
MetadataUpdated and FilesDiscovered events for the torrent; and because
each snapshot field is updated immediately after its event is appended,
a single poll emits at most one StateChanged, one Progress and one
Completed event for the torrent. -/
theorem C4_poll_dedup (id : String) (st : TorrentStatus) (info : Option InfoView)
    (snaps : SnapMap) :
    countKind .Progress (poll_events [] [(id, st, info)]
        (poll_events [] [(id, st, info)] snaps).snapshots).events = 0 ∧
    countKind .StateChanged (poll_events [] [(id, st, info)]
        (poll_events [] [(id, st, info)] snaps).snapshots).events = 0 ∧
    countKind .MetadataUpdated (poll_events [] [(id, st, info)]
        (poll_events [] [(id, st, info)] snaps).snapshots).events = 0 ∧
    countKind .FilesDiscovered (poll_events [] [(id, st, info)]
        (poll_events [] [(id, st, info)] snaps).snapshots).events = 0 ∧
    countKind .StateChanged (poll_events [] [(id, st, info)] snaps).events ≤ 1 ∧
    countKind .Progress (poll_events [] [(id, st, info)] snaps).events ≤ 1 ∧
    countKind .Completed (poll_events [] [(id, st, info)] snaps).events ≤ 1 := by
  simp only [poll_events_singleton]
  have hsnap : snapGetD (alSet snaps id (pollTorrent id st info (snapGetD snaps id)).snapshot) id
      = (pollTorrent id st info (snapGetD snaps id)).snapshot := by
    unfold snapGetD
    rw [alGet_alSet_same]
    rfl
  rw [hsnap]
  obtain ⟨f1, f2, f3, f4, f5, f6, f7⟩ :=
    pollTorrent_snapshot_fields id st info (snapGetD snaps id)
  rw [pollTorrent_stable id st info _ f1 f2 f3 f4 f5 f6 f7]
  obtain ⟨b1, b2, b3⟩ := pollTorrent_counts id st info (snapGetD snaps id)
  exact ⟨countKind_stageErrorEvents id st _ (by decide),
    countKind_stageErrorEvents id st _ (by decide),
    countKind_stageErrorEvents id st _ (by decide),
    countKind_stageErrorEvents id st _ (by decide), b1, b2, b3⟩

theorem snapGetD_alSet_same (m : SnapMap) (k : String) (v : TorrentSnapshot) :
    snapGetD (alSet m k v) k = v := by
  unfold snapGetD
  rw [alGet_alSet_same]
  rfl

theorem snapGetD_alSet_other (m : SnapMap) (k k2 : String) (v : TorrentSnapshot)
    (h : k2 ≠ k) : snapGetD (alSet m k v) k2 = snapGetD m k2 := by
  unfold snapGetD
  rw [alGet_alSet_other _ _ _ _ h]

theorem stageResume_spec (st : TorrentStatus) (snap : TorrentSnapshot) :
    (stageResume st snap).2 = (st.need_save_resume && !snap.resume_requested) ∧
    (stageResume st snap).1.resume_requested
      = (snap.resume_requested || st.need_save_resume) := by
  unfold stageResume
  split_ifs <;> simp_all

/-- The resume-request behaviour of one per-torrent poll body: a save is
requested iff the engine flags the torrent dirty and no save is already
outstanding, and afterwards the flag records that a save is
outstanding. -/
theorem pollTorrent_resume_spec (id : String) (st : TorrentStatus) (info : Option InfoView)
    (snap : TorrentSnapshot) :
    (pollTorrent id st info snap).save_requested
      = (st.need_save_resume && !snap.resume_requested) ∧
    (pollTorrent id st info snap).snapshot.resume_requested
      = (snap.resume_requested || st.need_save_resume) := by
  have hpres : (stageCompleted id st (stageProgress id st (stageState id st
      (stageNameDiff id st info (stageMetadata id st info snap).2).2).2).2).2.resume_requested
      = snap.resume_requested := by
    rw [(stageCompleted_fields id st _).2.2.2.2.2.2.2,
      (stageProgress_fields id st _).2.2.2.2.2.2.2,
      (stageState_fields id st _).2.2.2.2.2.2.2,
      (stageNameDiff_fields id st info _).2.2.2.2.2.2.2,
      (stageMetadata_fields id st info snap).2.2.2.2.1]
  rw [pollTorrent_save_eq, pollTorrent_snapshot_eq]
  obtain ⟨ha, hb⟩ := stageResume_spec st (stageCompleted id st (stageProgress id st
    (stageState id st (stageNameDiff id st info (stageMetadata id st info snap).2).2).2).2).2
  rw [ha, hb, hpres]
  exact ⟨rfl, rfl⟩

/-- C5.  Once a torrent's "needs resume save" flag is observed, the poll
loop issues at most one `save_resume_data` request until the outstanding
flag is cleared: (1) with the flag outstanding no further request is
issued and the flag stays set; (2) with no save outstanding a request is
issued iff the engine reports the torrent dirty, setting the flag;
(3) no alert other than a save-resume result for that torrent changes
the flag; (4) a `save_resume_data` alert is emitted as a ResumeData
event and clears the flag; (5) a `save_resume_data_failed` alert is
emitted as an Error event and clears the flag. -/
theorem C5_resume_request_dedup :
    (∀ (id : String) (st : TorrentStatus) (info : Option InfoView) (snap : TorrentSnapshot),
       snap.resume_requested = true →
       (pollTorrent id st info snap).save_requested = false ∧
       (pollTorrent id st info snap).snapshot.resume_requested = true) ∧
    (∀ (id : String) (st : TorrentStatus) (info : Option InfoView) (snap : TorrentSnapshot),
       snap.resume_requested = false →
       ((pollTorrent id st info snap).save_requested = st.need_save_resume ∧
        (pollTorrent id st info snap).snapshot.resume_requested = st.need_save_resume)) ∧
    (∀ (ids : List String) (snaps : SnapMap) (a : Alert) (id : String),
       (∀ payload, a ≠ .save_resume_data id payload) →
       (∀ msg, a ≠ .save_resume_data_failed id msg) →
       (snapGetD (processAlert ids snaps a).2 id).resume_requested
         = (snapGetD snaps id).resume_requested) ∧
    (∀ (ids : List String) (snaps : SnapMap) (id : String) (payload : List Nat)
       (snap : TorrentSnapshot), id ∈ ids → id ≠ "" → alGet snaps id = some snap →
       processAlert ids snaps (.save_resume_data id payload)
         = ([{ id := id, kind := .ResumeData, state := snap.state, resume_data := payload }],
            alSet snaps id { snap with resume_requested := false })) ∧
    (∀ (ids : List String) (snaps : SnapMap) (id : String) (msg : String)
       (snap : TorrentSnapshot), id ∈ ids → id ≠ "" → alGet snaps id = some snap →
       processAlert ids snaps (.save_resume_data_failed id msg)
         = ([{ id := id, kind := .Error, state := snap.state, message := msg }],
            alSet snaps id { snap with resume_requested := false })) := by
  refine ⟨?_, ?_, ?_, ?_, ?_⟩
  · intro id st info snap h
    obtain ⟨ha, hb⟩ := pollTorrent_resume_spec id st info snap
    rw [ha, hb, h]
    simp
  · intro id st info snap h
    obtain ⟨ha, hb⟩ := pollTorrent_resume_spec id st info snap
    rw [ha, hb, h]
    simp
  · intro ids snaps a id hno1 hno2
    cases a with
    | torrent_error aid msg => rfl
    | tracker_error aid url msg => rfl
    | listen_failed msg => rfl
    | portmap_error msg => rfl
    | file_error aid msg => rfl
    | tracker_warning aid url msg => rfl
    | peer_ban aid msg => rfl
    | peer_error aid msg => rfl
    | peer_blocked aid msg => rfl
    | torrent_need_cert aid msg => rfl
    | storage_moved aid path info2 =>
      dsimp only [processAlert]
      cases hG : alGet snaps (find_torrent_id ids aid) with
      | none => rfl
      | some snap =>
        dsimp only
        split_ifs with hne
        · by_cases he : find_torrent_id ids aid = id
          · rw [he] at hG
            rw [he, snapGetD_alSet_same]
            unfold snapGetD
            rw [hG]
            rfl
          · rw [snapGetD_alSet_other _ _ _ _ (fun hh => he hh.symm)]
        · rfl
    | storage_moved_failed aid msg =>
      dsimp only [processAlert]
      cases hG : alGet snaps (find_torrent_id ids aid) with
      | none => rfl
      | some snap =>
        dsimp only
        split_ifs with hne
        · rfl
        · rfl
    | save_resume_data aid payload =>
      have haid : aid ≠ id := fun h => hno1 payload (by rw [h])
      dsimp only [processAlert]
      cases hG : alGet snaps (find_torrent_id ids aid) with
      | none => rfl
      | some snap =>
        dsimp only
        split_ifs with hne
        · have hfid : find_torrent_id ids aid ≠ id := by
            unfold find_torrent_id at hne ⊢
            split_ifs with hmem
            · exact haid
            · rw [if_neg hmem] at hne
              exact absurd rfl hne
          rw [snapGetD_alSet_other _ _ _ _ (fun hh => hfid hh.symm)]
        · rfl
    | save_resume_data_failed aid msg =>
      have haid : aid ≠ id := fun h => hno2 msg (by rw [h])
      dsimp only [processAlert]
      cases hG : alGet snaps (find_torrent_id ids aid) with
      | none => rfl
      | some snap =>
        dsimp only
        split_ifs with hne
        · have hfid : find_torrent_id ids aid ≠ id := by
            unfold find_torrent_id at hne ⊢
            split_ifs with hmem
            · exact haid
            · rw [if_neg hmem] at hne
              exact absurd rfl hne
          rw [snapGetD_alSet_other _ _ _ _ (fun hh => hfid hh.symm)]
        · rfl
  · intro ids snaps id payload snap hmem hne hG
    dsimp only [processAlert]
    have hfid : find_torrent_id ids id = id := by
      unfold find_torrent_id
      rw [if_pos hmem]
    rw [hfid, hG]
    dsimp only
    rw [if_pos hne]
  · intro ids snaps id msg snap hmem hne hG
    dsimp only [processAlert]
    have hfid : find_torrent_id ids id = id := by
      unfold find_torrent_id
      rw [if_pos hmem]
    rw [hfid, hG]
    dsimp only
    rw [if_pos hne]

/-- C5 witness: with a save already outstanding no new request is
issued, and a concrete `save_resume_data` alert is emitted as a
ResumeData event and clears the flag. -/
theorem C5_resume_request_dedup_witness :
    ((pollTorrent "t" { need_save_resume := true } none
        { resume_requested := true }).save_requested = false ∧
     (pollTorrent "t" { need_save_resume := true } none
        { resume_requested := true }).snapshot.resume_requested = true) ∧
    processAlert ["t"] [("t", { resume_requested := true })] (.save_resume_data "t" [7])
      = ([{ id := "t", kind := .ResumeData,
            state := ({ resume_requested := true } : TorrentSnapshot).state,
            resume_data := [7] }],
         alSet [("t", { resume_requested := true })] "t"
           { ({ resume_requested := true } : TorrentSnapshot) with
             resume_requested := false }) :=
  ⟨C5_resume_request_dedup.1 "t" { need_save_resume := true } none
     { resume_requested := true } rfl,
   C5_resume_request_dedup.2.2.2.1 ["t"] [("t", { resume_requested := true })] "t" [7]
     { resume_requested := true } (by simp) (by decide) rfl⟩

/-! ## Sampled hash verifier (`hash_sample`, lines 248-322)

The disk and SHA-1 are external: file reads become an oracle returning
`none` when the file cannot be opened and the bytes actually read
otherwise (a short list is a short read), and SHA-1 an oracle function
on byte lists.  `EVP` context-allocation failures are not modelled (the
digest oracle is total); `operator/` on paths is modelled as
concatenation with a slash. -/

structure FileSlice where
  file_index : Nat := 0
  offset : Nat := 0
  size : Nat := 0

/-- The slice of `lt::torrent_info` that `hash_sample` and the add path
read: piece geometry, the block map, file paths, expected piece hashes,
and the metainfo tracker list (for the private-flag check). -/
structure TorrentInfoV where
  name : String := ""
  num_pieces : Nat := 0
  piece_size : Nat → Nat := fun _ => 0
  map_block : Nat → Nat → Nat → List FileSlice := fun _ _ _ => []
  file_path : Nat → String := fun _ => ""
  hash_for_piece : Nat → List Nat := fun _ => []
  trackers : List String := []

structure Disk where
  read : String → Nat → Nat → Option (List Nat) := fun _ _ _ => none

def joinPath (root rel : String) : String := root ++ "/" ++ rel

/-- The per-piece read loop (lines 280-303): read every file byte-range
the piece spans, concatenating the digest input; the first missing or
truncated file aborts with a descriptive error. -/
def read_slices (disk : Disk) (info : TorrentInfoV) (root : String) :
    List FileSlice → Except String (List Nat)
  | [] => .ok []
  | sl :: rest =>
    let path := joinPath root (info.file_path sl.file_index)
    match disk.read path sl.offset sl.size with
    | none => .error ("seed-mode sample failed: missing file " ++ path)
    | some bytes =>
      if bytes.length ≠ sl.size then
        .error ("seed-mode sample failed: truncated file " ++ path)
      else
        match read_slices disk info root rest with
        | .error e => .error e
        | .ok tail => .ok (bytes ++ tail)

/-- One piece of the verification loop (lines 269-319): digest the
concatenated slice bytes and compare against the expected hash. -/
def check_piece (sha1 : List Nat → List Nat) (disk : Disk) (info : TorrentInfoV)
    (root : String) (piece : Nat) : Option String :=
  match read_slices disk info root (info.map_block piece 0 (info.piece_size piece)) with
  | .error e => some e
  | .ok data =>
    let digest := sha1 data
    if digest.length ≠ 20 then some "seed-mode sample failed: digest length mismatch"
    else if digest ≠ info.hash_for_piece piece then
      some ("seed-mode sample failed: hash mismatch for piece " ++ toString piece)
    else none

def check_pieces (sha1 : List Nat → List Nat) (disk : Disk) (info : TorrentInfoV)
    (root : String) : List Nat → Option String
  | [] => none
  | p :: rest =>
    match check_piece sha1 disk info root p with
    | some e => some e
    | none => check_pieces sha1 disk info root rest

/-- `hash_sample` (lines 248-322): no-op on a zero percentage or an
empty torrent, else verify the sampled pieces, aborting at the first
failure. -/
def hash_sample (sha1 : List Nat → List Nat) (disk : Disk) (info : TorrentInfoV)
    (save_path : String) (sample_pct : Nat) : Option String :=
  if sample_pct = 0 then none
  else if info.num_pieces = 0 then none
  else
    check_pieces sha1 disk info save_path
      (pick_sample_pieces info.num_pieces (sample_count info.num_pieces sample_pct))

/-- A hash-sample error names the offending piece or file. -/
def names_piece_or_file (e : String) : Prop :=
  (∃ piece : Nat, e = "seed-mode sample failed: hash mismatch for piece " ++ toString piece) ∨
  (∃ path : String,
    e = "seed-mode sample failed: missing file " ++ path ∨
    e = "seed-mode sample failed: truncated file " ++ path)

theorem read_slices_names (disk : Disk) (info : TorrentInfoV) (root : String) :
    ∀ (slices : List FileSlice) (e : String),
      read_slices disk info root slices = .error e → names_piece_or_file e := by
  intro slices
  induction slices with
  | nil => intro e he; exact absurd he (by simp [read_slices])
  | cons sl rest ih =>
    intro e he
    rw [read_slices] at he
    split at he
    · injection he with he2
      exact Or.inr ⟨_, Or.inl he2.symm⟩
    · split_ifs at he with hlen
      · injection he with he2
        exact Or.inr ⟨_, Or.inr he2.symm⟩
      · split at he
        · rename_i e2 hrec
          injection he with he2
          exact he2 ▸ ih e2 hrec
        · exact absurd he (by simp)

theorem check_piece_names (sha1 : List Nat → List Nat) (disk : Disk) (info : TorrentInfoV)
    (root : String) (piece : Nat) (e : String)
    (hsha : ∀ b, (sha1 b).length = 20)
    (h : check_piece sha1 disk info root piece = some e) : names_piece_or_file e := by
  rw [check_piece] at h
  split at h
  · rename_i e2 hrec
    injection h with h2
    exact h2 ▸ read_slices_names disk info root _ e2 hrec
  · rename_i data hrec
    rw [if_neg (by rw [hsha data]; exact fun hc => hc rfl)] at h
    split_ifs at h
    injection h with h2
    exact Or.inl ⟨piece, h2.symm⟩

theorem check_pieces_names (sha1 : List Nat → List Nat) (disk : Disk) (info : TorrentInfoV)
    (root : String) (hsha : ∀ b, (sha1 b).length = 20) :
    ∀ (pieces : List Nat) (e : String),
      check_pieces sha1 disk info root pieces = some e → names_piece_or_file e := by
  intro pieces
  induction pieces with
  | nil => intro e he; exact absurd he (by simp [check_pieces])
  | cons p rest ih =>
    intro e he
    rw [check_pieces] at he
    split at he
    · rename_i e2 hc
      injection he with he2
      exact he2 ▸ check_piece_names sha1 disk info root p e2 hsha hc
    · exact ih e he

theorem hash_sample_names (sha1 : List Nat → List Nat) (disk : Disk) (info : TorrentInfoV)
    (save_path : String) (pct : Nat) (e : String)
    (hsha : ∀ b, (sha1 b).length = 20)
    (h : hash_sample sha1 disk info save_path pct = some e) : names_piece_or_file e := by
  unfold hash_sample at h
  split_ifs at h
  exact check_pieces_names sha1 disk info save_path hsha _ e h

/-! ## Session orchestrator: `add_torrent` (lines 1125-1354),
`load_fastresume` (lines 1405-1412)

The libtorrent entry points the add path calls (resume parsing, magnet
parsing, bdecode/bencode, torrent-info parsing, torrent registration)
are oracle fields of `Engine`; `post_register` stands for the
queue-position / max-connections / sequential-flag engine calls issued
after registration, which can also throw.  Orchestrator state is the
four id-keyed maps plus the session defaults `add_torrent` reads. -/

inductive SourceKind where
  | Magnet | Metainfo
  deriving DecidableEq

structure TrackerAuthOptions where
  has_username : Bool := false
  username : String := ""
  has_password : Bool := false
  password : String := ""
  has_cookie : Bool := false
  cookie : String := ""

structure AddTorrentRequest where
  id : String := ""
  source_kind : SourceKind := .Metainfo
  magnet_uri : String := ""
  metainfo : List Nat := []
  has_download_dir : Bool := false
  download_dir : String := ""
  trackers : List String := []
  replace_trackers : Bool := false
  web_seeds : List String := []
  replace_web_seeds : Bool := false
  tracker_auth : TrackerAuthOptions := {}
  has_comment : Bool := false
  comment : String := ""
  has_source : Bool := false
  source : String := ""
  has_private : Bool := false
  private_flag : Bool := false
  has_seed_mode : Bool := false
  seed_mode : Bool := false
  has_hash_check_sample : Bool := false
  hash_check_sample_pct : Nat := 0
  has_start_paused : Bool := false
  start_paused : Bool := false
  has_auto_managed : Bool := false
  auto_managed : Bool := false
  has_pex_enabled : Bool := false
  pex_enabled : Bool := false
  has_super_seeding : Bool := false
  super_seeding : Bool := false
  has_max_connections : Bool := false
  max_connections : Int := 0
  has_queue_position : Bool := false
  queue_position : Int := 0
  has_sequential_override : Bool := false
  sequential : Bool := false
  has_storage_mode : Bool := false
  storage_mode : Nat := 0
  tags : List String := []

/-- `overrides_from_request` (lines 170-185). -/
def overrides_from_request (request : AddTorrentRequest) : MetainfoOverrides :=
  { has_comment := request.has_comment
    comment := if request.has_comment then request.comment else ""
    has_source := request.has_source
    source := if request.has_source then request.source else ""
    has_private := request.has_private
    private_flag := if request.has_private then request.private_flag else false }

/-- `to_storage_mode` (lines 147-152): 1 is allocate, anything else
sparse (0). -/
def to_storage_mode (mode : Nat) : Nat := if mode = 1 then 1 else 0

/-- The `lt::torrent_flags` bits `add_torrent` manipulates. -/
structure TFlags where
  auto_managed : Bool := false
  disable_pex : Bool := false
  seed_mode : Bool := false
  super_seeding : Bool := false
  paused : Bool := false
  sequential_download : Bool := false

/-- The slice of `lt::add_torrent_params` the add path builds. -/
structure AddParams where
  save_path : String := ""
  ti : Option TorrentInfoV := none
  trackers : List String := []
  url_seeds : List String := []
  trackerid : String := ""
  flags : TFlags := {}
  max_connections : Int := 0
  storage_mode : Nat := 0

/-- The external libtorrent entry points the add path invokes, as
oracles; `Except.error` models a reported error code or a thrown
exception (caught and returned as its message). -/
structure Engine where
  read_resume_data : List Nat → Except String AddParams := fun _ => .error ""
  parse_magnet : String → Except String AddParams := fun _ => .error ""
  bdecode : List Nat → Except String Entry := fun _ => .error ""
  bencode : Entry → List Nat := fun _ => []
  parse_torrent_info : List Nat → Except String TorrentInfoV := fun _ => .error ""
  register_torrent : AddParams → Except String Nat := fun _ => .ok 0
  post_register : Except String Unit := .ok ()
  sha1 : List Nat → List Nat := fun _ => []
  disk : Disk := {}

/-- The orchestrator state `add_torrent` reads and writes: the session
defaults and the four id-keyed maps (lines 2144-2171). -/
structure SessState where
  default_download_root : String := ""
  sequential_default : Bool := false
  auto_managed_default : Bool := true
  super_seeding_default : Bool := false
  pex_enabled : Bool := true
  default_max_connections_per_torrent : Int := -1
  default_trackers : List String := []
  extra_trackers : List String := []
  replace_default_trackers : Bool := false
  has_tracker_username : Bool := false
  tracker_username : String := ""
  has_tracker_password : Bool := false
  tracker_password : String := ""
  has_tracker_cookie : Bool := false
  tracker_cookie : String := ""
  default_storage_mode : Nat := 0
  handles : List (String × Nat) := []
  snapshots : SnapMap := []
  pending_resume : List (String × List Nat) := []
  selection_rules : List (String × SelectionEntry) := []

/-- `resolve_auth_view` (lines 2076-2094): request-level credentials,
falling back to session-level ones per field. -/
def resolve_auth_view (s : SessState) (request : TrackerAuthOptions) : AuthView :=
  let v : AuthView :=
    { username := if request.has_username then request.username else ""
      password := if request.has_password then request.password else ""
      has_username := request.has_username
      has_password := request.has_password }
  let v := if !v.has_username && s.has_tracker_username then
      { v with username := s.tracker_username, has_username := true } else v
  if !v.has_password && s.has_tracker_password then
    { v with password := s.tracker_password, has_password := true } else v

/-- `load_fastresume` (lines 1405-1412): store the raw payload keyed by
id. -/
def load_fastresume (s : SessState) (id : String) (data : List Nat) : SessState :=
  { s with pending_resume := alSet s.pending_resume id data }

/-- The parameter-resolution phase of `add_torrent` (lines 1127-1279):
consume any pending resume payload (erased before its parse result is
inspected), else resolve the source as magnet or metainfo (applying the
§4.2 overrides to metainfo bytes before parsing).  Returns the resolved
`add_torrent_params` or the error, plus the state (the pending payload
for the id, if any, is removed). -/
def resolve_params (eng : Engine) (s : SessState) (request : AddTorrentRequest) :
    Except String AddParams × SessState :=
  match alGet s.pending_resume request.id with
  | some bytes =>
    let s2 := { s with pending_resume := alErase s.pending_resume request.id }
    match eng.read_resume_data bytes with
    | .error msg => (.error ("resume data parse failed: " ++ msg), s2)
    | .ok p0 =>
      let p :=
        if p0.save_path = "" then
          { p0 with save_path := if request.has_download_dir then request.download_dir
                                 else s.default_download_root }
        else if request.has_download_dir then { p0 with save_path := request.download_dir }
        else p0
      (.ok p, s2)
  | none =>
    let save_path := if request.has_download_dir then request.download_dir
                     else s.default_download_root
    if save_path = "" then (.error "download directory not configured", s)
    else
      match request.source_kind with
      | .Magnet =>
        match eng.parse_magnet request.magnet_uri with
        | .error msg => (.error msg, s)
        | .ok parsed => (.ok { parsed with save_path := save_path }, s)
      | .Metainfo =>
        if request.metainfo = [] then (.error "metainfo payload empty", s)
        else
          let ov := overrides_from_request request
          let buf : Except String (List Nat) :=
            if ov.has_comment || ov.has_source || ov.has_private then
              match eng.bdecode request.metainfo with
              | .error msg => .error ("metainfo decode failed: " ++ msg)
              | .ok decoded =>
                match apply_metainfo_overrides decoded ov with
                | .error e => .error e
                | .ok updated => .ok (eng.bencode updated)
            else .ok request.metainfo
          match buf with
          | .error e => (.error e, s)
          | .ok bytes =>
            match eng.parse_torrent_info bytes with
            | .error msg =>
              (.error ("metainfo parse failed (bytes="
                ++ toString bytes.length ++ "): " ++ msg), s)
            | .ok info => (.ok { save_path := save_path, ti := some info }, s)

/-- The web-seed merge of `add_torrent` (lines 1294-1316,
non-replacing case): append request seeds not already present. -/
def merge_web_seeds (existing req : List String) : List String :=
  req.foldl (fun acc sd => if sd ∈ acc then acc else acc ++ [sd]) existing

/-- Flag, connection-limit and tracker resolution of `add_torrent`
(lines 1229-1283): request value, else session default, else engine
default; the merged tracker list is auth-rewritten when non-empty. -/
def build_params_pre (s : SessState) (request : AddTorrentRequest) (p0 : AddParams) :
    AddParams :=
  let seed_mode_requested := request.has_seed_mode && request.seed_mode
  let auto_managed := if request.has_auto_managed then request.auto_managed
    else if request.has_queue_position then false else s.auto_managed_default
  let pex := if request.has_pex_enabled then request.pex_enabled else s.pex_enabled
  let super_seeding := if request.has_super_seeding then request.super_seeding
    else s.super_seeding_default
  let p := { p0 with flags :=
    { p0.flags with
      auto_managed := auto_managed
      disable_pex := !pex
      seed_mode := seed_mode_requested
      super_seeding := super_seeding
      paused := p0.flags.paused || (request.has_start_paused && request.start_paused) } }
  let p := if request.has_max_connections && decide (request.max_connections > 0) then
      { p with max_connections := request.max_connections }
    else if s.default_max_connections_per_torrent > 0 then
      { p with max_connections := s.default_max_connections_per_torrent }
    else p
  let auth := resolve_auth_view s request.tracker_auth
  let trackers0 := if !s.replace_default_trackers then
      s.default_trackers ++ s.extra_trackers else []
  let trackers := if request.replace_trackers then request.trackers
    else trackers0 ++ request.trackers
  if !trackers.isEmpty then { p with trackers := apply_tracker_auth trackers auth } else p

/-- The private-flag tracker presence check (lines 1285-1293). -/
def has_tracker_check (p : AddParams) : Bool :=
  !p.trackers.isEmpty ||
    (match p.ti with | some info => !info.trackers.isEmpty | none => false)

/-- Tracker-cookie, web-seed and storage-mode resolution (lines
1294-1327). -/
def build_params_post (s : SessState) (request : AddTorrentRequest) (p : AddParams) :
    AddParams :=
  let p := if request.tracker_auth.has_cookie then
      { p with trackerid := request.tracker_auth.cookie }
    else if s.has_tracker_cookie then { p with trackerid := s.tracker_cookie } else p
  let p := if !request.web_seeds.isEmpty then
      (if request.replace_web_seeds then { p with url_seeds := request.web_seeds }
       else if !p.url_seeds.isEmpty then
         { p with url_seeds := merge_web_seeds p.url_seeds request.web_seeds }
       else { p with url_seeds := request.web_seeds })
    else p
  if request.has_storage_mode then
    { p with storage_mode := to_storage_mode request.storage_mode }
  else { p with storage_mode := s.default_storage_mode }

/-- The remainder of `add_torrent` (lines 1281-1354): seed-mode and
hash-sample gates, flag and limit resolution, tracker merge with auth
rewriting, the private-flag validation, web-seed merge, storage mode,
engine registration (recording the handle and a fresh snapshot), and
the post-registration engine calls. -/
def add_torrent_rest (eng : Engine) (s : SessState) (request : AddTorrentRequest)
    (p0 : AddParams) : String × SessState :=
  let ov := overrides_from_request request
  let seed_mode_requested := request.has_seed_mode && request.seed_mode
  let hash_sample_requested :=
    request.has_hash_check_sample && decide (request.hash_check_sample_pct > 0)
  if seed_mode_requested && p0.ti.isNone then ("seed_mode requires metainfo payload", s)
  else
    let hres : Option String :=
      if hash_sample_requested then
        match p0.ti with
        | none => some "hash sample requires metainfo payload"
        | some info =>
          hash_sample eng.sha1 eng.disk info p0.save_path request.hash_check_sample_pct
      else none
    match hres with
    | some e => (e, s)
    | none =>
      let p := build_params_pre s request p0
      if ov.has_private && ov.private_flag && !(has_tracker_check p) then
        ("private torrents require at least one tracker", s)
      else
        match eng.register_torrent (build_params_post s request p) with
        | .error e => (e, s)
        | .ok handle =>
          let s2 := { s with
            handles := alSet s.handles request.id handle
            snapshots := alSet s.snapshots request.id {} }
          match eng.post_register with
          | .error e => (e, s2)
          | .ok _ => ("", s2)

/-- `add_torrent` (lines 1125-1354). -/
def add_torrent (eng : Engine) (s : SessState) (request : AddTorrentRequest) :
    String × SessState :=
  match resolve_params eng s request with
  | (.error msg, s2) => (msg, s2)
  | (.ok p, s2) => add_torrent_rest eng s2 request p

theorem alGet_not_mem_keys {α : Type} (m : List (String × α)) (k : String)
    (h : k ∉ m.map Prod.fst) : alGet m k = none := by
  induction m with
  | nil => rfl
  | cons kv rest ih =>
    obtain ⟨k2, w⟩ := kv
    simp only [List.map_cons, List.mem_cons] at h
    push_neg at h
    rw [alGet, if_neg (fun he => h.1 he.symm)]
    exact ih h.2

theorem alGet_alErase_same {α : Type} (m : List (String × α)) (k : String)
    (hnodup : (m.map Prod.fst).Nodup) : alGet (alErase m k) k = none := by
  induction m with
  | nil => rfl
  | cons kv rest ih =>
    obtain ⟨k2, w⟩ := kv
    simp only [List.map_cons, List.nodup_cons] at hnodup
    by_cases h : k2 = k
    · subst h
      rw [alErase, if_pos rfl]
      exact alGet_not_mem_keys rest k2 hnodup.1
    · rw [alErase, if_neg h, alGet, if_neg h]
      exact ih hnodup.2

theorem alGet_alErase_other {α : Type} (m : List (String × α)) (k k2 : String)
    (hne : k2 ≠ k) : alGet (alErase m k) k2 = alGet m k2 := by
  induction m with
  | nil => rfl
  | cons kv rest ih =>
    obtain ⟨k3, w⟩ := kv
    by_cases h : k3 = k
    · subst h
      simp [alErase, alGet, Ne.symm hne]
    · rw [alErase, if_neg h, alGet, alGet]
      by_cases h2 : k3 = k2
      · rw [if_pos h2, if_pos h2]
      · rw [if_neg h2, if_neg h2]
        exact ih

theorem alErase_of_none {α : Type} (m : List (String × α)) (k : String)
    (h : alGet m k = none) : alErase m k = m := by
  induction m with
  | nil => rfl
  | cons kv rest ih =>
    obtain ⟨k2, w⟩ := kv
    rw [alGet] at h
    by_cases he : k2 = k
    · rw [if_pos he] at h
      exact absurd h (by simp)
    · rw [if_neg he] at h
      rw [alErase, if_neg he, ih h]

/-- The resolution phase touches only `pending_resume`, erasing the id's
entry (a no-op when none is pending). -/
theorem resolve_params_state (eng : Engine) (s : SessState) (request : AddTorrentRequest) :
    (resolve_params eng s request).2 =
      { s with pending_resume := alErase s.pending_resume request.id } := by
  cases hG : alGet s.pending_resume request.id with
  | some bytes =>
    unfold resolve_params
    rw [hG]
    dsimp only
    cases eng.read_resume_data bytes <;> rfl
  | none =>
    have he : alErase s.pending_resume request.id = s.pending_resume :=
      alErase_of_none _ _ hG
    rw [he]
    show (resolve_params eng s request).2 = s
    unfold resolve_params
    rw [hG]
    dsimp only
    repeat' (first | rfl | split)

/-- The post-resolution phase of the add path never touches
`pending_resume` or `selection_rules`. -/
theorem add_torrent_rest_frame (eng : Engine) (s : SessState) (request : AddTorrentRequest)
    (p0 : AddParams) :
    (add_torrent_rest eng s request p0).2.pending_resume = s.pending_resume ∧
    (add_torrent_rest eng s request p0).2.selection_rules = s.selection_rules := by
  constructor
  · unfold add_torrent_rest
    dsimp only
    repeat' (first | rfl | split)
  · unfold add_torrent_rest
    dsimp only
    repeat' (first | rfl | split)

/-- The hash-sample gate: when the sample check fails, `add_torrent_rest`
returns that error with the state untouched. -/
theorem add_torrent_rest_hash_fail (eng : Engine) (s : SessState)
    (request : AddTorrentRequest) (p0 : AddParams) (info : TorrentInfoV) (e : String)
    (hflag : request.has_hash_check_sample = true)
    (hpct : request.hash_check_sample_pct > 0)
    (hti : p0.ti = some info)
    (hfail : hash_sample eng.sha1 eng.disk info p0.save_path
        request.hash_check_sample_pct = some e) :
    add_torrent_rest eng s request p0 = (e, s) := by
  unfold add_torrent_rest
  rw [hti]
  dsimp only
  rw [if_neg (by simp)]
  rw [if_pos (by rw [hflag]; simpa using hpct)]
  rw [hfail]

/-- `add_torrent` always leaves `pending_resume` equal to the input map
minus the id's entry, whatever the outcome. -/
theorem add_torrent_pending (eng : Engine) (s : SessState) (request : AddTorrentRequest) :
    (add_torrent eng s request).2.pending_resume
      = alErase s.pending_resume request.id := by
  unfold add_torrent
  cases hr : resolve_params eng s request with
  | mk res s2 =>
    have hs2 : s2 = { s with pending_resume := alErase s.pending_resume request.id } := by
      have h := resolve_params_state eng s request
      rw [hr] at h
      exact h
    cases res with
    | error msg =>
      dsimp only
      rw [hs2]
    | ok p =>
      dsimp only
      rw [(add_torrent_rest_frame eng s2 request p).1, hs2]

/-- C2 (amended).  When the sampled verification of a seed-mode add
fails, `add_torrent` returns the hash-sample error (which names the
offending piece or file, given that the digest oracle produces 20-byte
SHA-1 digests); afterwards `handles`, `snapshots` and `selection_rules`
are exactly as before the call — in particular no handle or snapshot is
registered for the id — while a pending resume payload for that id, if
one existed, has still been consumed (so the whole orchestrator state is
not necessarily unchanged; see the counterexample). -/
theorem C2_hash_fail_no_registration (eng : Engine) (s s1 : SessState)
    (request : AddTorrentRequest) (p : AddParams) (info : TorrentInfoV) (e : String)
    (hflag : request.has_hash_check_sample = true)
    (hpct : request.hash_check_sample_pct > 0)
    (hres : resolve_params eng s request = (.ok p, s1))
    (hti : p.ti = some info)
    (hfail : hash_sample eng.sha1 eng.disk info p.save_path
        request.hash_check_sample_pct = some e) :
    add_torrent eng s request = (e, s1) ∧
    s1.handles = s.handles ∧
    s1.snapshots = s.snapshots ∧
    s1.selection_rules = s.selection_rules ∧
    ((∀ b, (eng.sha1 b).length = 20) → names_piece_or_file e) := by
  have hs1 : s1 = { s with pending_resume := alErase s.pending_resume request.id } := by
    have h := resolve_params_state eng s request
    rw [hres] at h
    exact h
  refine ⟨?_, by rw [hs1], by rw [hs1], by rw [hs1], ?_⟩
  · unfold add_torrent
    rw [hres]
    exact add_torrent_rest_hash_fail eng s1 request p info e hflag hpct hti hfail
  · intro hsha
    exact hash_sample_names eng.sha1 eng.disk info p.save_path
      request.hash_check_sample_pct e hsha hfail

/-- C3.  A pending resume payload is consumed exactly once by the next
`add_torrent` call for its id, in every outcome: afterwards no payload
remains under the id (given the map's keys are unique, as an
`unordered_map`'s always are), other ids' payloads are untouched, a
resume-parse failure returns the parse error with the payload already
discarded, and `load_fastresume` is what installs a payload. -/
theorem C3_pending_resume_consumed :
    (∀ (eng : Engine) (s : SessState) (request : AddTorrentRequest),
       (s.pending_resume.map Prod.fst).Nodup →
       alGet (add_torrent eng s request).2.pending_resume request.id = none) ∧
    (∀ (eng : Engine) (s : SessState) (request : AddTorrentRequest) (k : String),
       k ≠ request.id →
       alGet (add_torrent eng s request).2.pending_resume k
         = alGet s.pending_resume k) ∧
    (∀ (eng : Engine) (s : SessState) (request : AddTorrentRequest)
       (bytes : List Nat) (msg : String),
       alGet s.pending_resume request.id = some bytes →
       eng.read_resume_data bytes = .error msg →
       add_torrent eng s request =
         ("resume data parse failed: " ++ msg,
          { s with pending_resume := alErase s.pending_resume request.id })) ∧
    (∀ (s : SessState) (id : String) (data : List Nat),
       alGet (load_fastresume s id data).pending_resume id = some data) := by
  refine ⟨?_, ?_, ?_, ?_⟩
  · intro eng s request hnodup
    rw [add_torrent_pending]
    exact alGet_alErase_same _ _ hnodup
  · intro eng s request k hk
    rw [add_torrent_pending]
    exact alGet_alErase_other _ _ _ hk
  · intro eng s request bytes msg hG hread
    unfold add_torrent resolve_params
    rw [hG]
    dsimp only
    rw [hread]
  · intro s id data
    unfold load_fastresume
    dsimp only
    exact alGet_alSet_same _ _ _

/-- A one-piece, one-file torrent view for the C2 instances. -/
def infoW : TorrentInfoV :=
  { num_pieces := 1
    piece_size := fun _ => 1
    map_block := fun _ _ _ => [{ file_index := 0, offset := 0, size := 1 }]
    file_path := fun _ => "f.bin"
    hash_for_piece := fun _ => List.replicate 20 0 }

/-- An engine whose disk is missing every file. -/
def engW : Engine :=
  { parse_torrent_info := fun _ => .ok infoW
    sha1 := fun _ => List.replicate 20 0
    disk := { read := fun _ _ _ => none } }

/-- A seed-mode add request with a 10% hash-check sample. -/
def reqW : AddTorrentRequest :=
  { id := "t"
    metainfo := [1]
    has_download_dir := true
    download_dir := "/d"
    has_seed_mode := true
    seed_mode := true
    has_hash_check_sample := true
    hash_check_sample_pct := 10 }

/-- C2 witness: a fresh seed-mode add whose single referenced file is
missing fails with the IntegrityError naming that file and registers
nothing. -/
theorem C2_hash_fail_no_registration_witness :
    add_torrent engW {} reqW = ("seed-mode sample failed: missing file /d/f.bin", {}) ∧
    SessState.handles {} = SessState.handles {} ∧
    SessState.snapshots {} = SessState.snapshots {} ∧
    SessState.selection_rules {} = SessState.selection_rules {} ∧
    ((∀ b, (engW.sha1 b).length = 20) →
      names_piece_or_file "seed-mode sample failed: missing file /d/f.bin") :=
  C2_hash_fail_no_registration engW {} {} reqW
    { save_path := "/d", ti := some infoW } infoW
    "seed-mode sample failed: missing file /d/f.bin"
    rfl (by decide) rfl rfl rfl

/-- An engine whose resume parser yields metainfo (resume payloads can
embed the info dictionary) over the same missing-file disk. -/
def engC2 : Engine :=
  { read_resume_data := fun _ => .ok { save_path := "/d", ti := some infoW }
    sha1 := fun _ => List.replicate 20 0
    disk := { read := fun _ _ _ => none } }

def sC2 : SessState := { pending_resume := [("t", [0])] }

/-- C2 counterexample to the claim as stated: with a pending resume
payload for the id, the failed seed-mode add still returns the
IntegrityError, but the orchestrator state is NOT entirely unchanged —
the pending payload has been consumed. -/
theorem C2_claim_counterexample :
    (add_torrent engC2 sC2 reqW).1 = "seed-mode sample failed: missing file /d/f.bin" ∧
    (add_torrent engC2 sC2 reqW).2.pending_resume = [] ∧
    sC2.pending_resume = [("t", [0])] ∧
    (add_torrent engC2 sC2 reqW).2 ≠ sC2 := by
  refine ⟨rfl, rfl, rfl, ?_⟩
  intro h
  have h2 := congrArg SessState.pending_resume h
  rw [show (add_torrent engC2 sC2 reqW).2.pending_resume = [] from rfl] at h2
  exact absurd h2 (by decide)

def engC3 : Engine := { read_resume_data := fun _ => .error "parse err" }

def sC3 : SessState := { pending_resume := [("t", [9])] }

def reqC3 : AddTorrentRequest := { id := "t" }

/-- C3 witness: a concrete pending payload is gone after the add (which
fails at resume parsing), other keys are untouched, the parse error is
returned, and `load_fastresume` installs a payload. -/
theorem C3_pending_resume_consumed_witness :
    alGet (add_torrent engC3 sC3 reqC3).2.pending_resume "t" = none ∧
    alGet (add_torrent engC3 sC3 reqC3).2.pending_resume "x"
      = alGet sC3.pending_resume "x" ∧
    add_torrent engC3 sC3 reqC3 =
      ("resume data parse failed: parse err",
       { sC3 with pending_resume := alErase sC3.pending_resume "t" }) ∧
    alGet (load_fastresume sC3 "u" [1]).pending_resume "u" = some [1] :=
  ⟨C3_pending_resume_consumed.1 engC3 sC3 reqC3 (by decide),
   C3_pending_resume_consumed.2.1 engC3 sC3 reqC3 "x" (by decide),
   C3_pending_resume_consumed.2.2.1 engC3 sC3 reqC3 [9] "parse err" rfl rfl,
   C3_pending_resume_consumed.2.2.2 sC3 "u" [1]⟩

end Revaer